import Mathlib

/-!
Verification of the voxel chunk subsystem (Chunk / BlockLocator / World) of
the SimpleMiner game in the Guildhall repository.

The definitions below are shallow embeddings of the C++ source:
  - Game/Code/Game/Environment/Chunk.cpp
  - Game/Code/Game/Environment/BlockLocator.cpp
  - Game/Code/Game/Environment/World.cpp
Machine integers are modelled as Nat (uint8 values stay below 256 by
construction or hypothesis; the 32-bit int block index of BlockLocator is
modelled as its two's-complement representative below 2^32).  Fallible
operations (out-of-bounds reads, null-pointer dereferences) return Option,
with none marking the fault.
-/

set_option maxRecDepth 4000

namespace SM

/-- Modelled from the spec: the chunk axis bit widths.  Chunk.hpp is not in
the source tree; the spec fixes a 16x16 block footprint per chunk with
power-of-two axes and chunks spanning the full world height, and the file
header stores one bit-width byte per axis.  The X/Y widths are pinned to 4
by the spec scenario (16x16 footprint); the Z width is taken as 8. -/
def CHUNK_BITS_X : Nat := 4

/-- Modelled from the spec: Y axis bit width (see CHUNK_BITS_X). -/
def CHUNK_BITS_Y : Nat := 4

/-- Modelled from the spec: Z axis bit width (see CHUNK_BITS_X). -/
def CHUNK_BITS_Z : Nat := 8

def CHUNK_DIMENSIONS_X : Nat := 2 ^ CHUNK_BITS_X

def CHUNK_DIMENSIONS_Y : Nat := 2 ^ CHUNK_BITS_Y

def CHUNK_DIMENSIONS_Z : Nat := 2 ^ CHUNK_BITS_Z

/-- Bitmask selecting the X bits of a block index (low 4 bits), as used by
BlockLocator.cpp. -/
def CHUNK_X_MASK : Nat := CHUNK_DIMENSIONS_X - 1

/-- Bitmask selecting the Y bits of a block index (bits 4..7), as used by
BlockLocator.cpp. -/
def CHUNK_Y_MASK : Nat := (CHUNK_DIMENSIONS_Y - 1) <<< CHUNK_BITS_X

/-- Bitmask selecting the Z bits of a block index (bits 8..15), as used by
BlockLocator.cpp. -/
def CHUNK_Z_MASK : Nat := (CHUNK_DIMENSIONS_Z - 1) <<< (CHUNK_BITS_X + CHUNK_BITS_Y)

/-- Number of blocks in one horizontal Z layer of a chunk (16 * 16). -/
def BLOCKS_PER_Z_LAYER : Nat := CHUNK_DIMENSIONS_X * CHUNK_DIMENSIONS_Y

/-- Total number of blocks in a chunk. -/
def BLOCKS_PER_CHUNK : Nat := BLOCKS_PER_Z_LAYER * CHUNK_DIMENSIONS_Z

/-- Modelled from the spec: the compiled chunk file format version byte
(Chunk.hpp is not in the source tree; the exact value is immaterial, only
that the file byte must equal the compiled constant). -/
def CHUNK_VERSION : Nat := 1

/-- Two's-complement representative of the C++ int value -1 (the block
index stored in the missing locator produced by ToAbove/ToBelow). -/
def UINT32_MAX : Nat := 2 ^ 32 - 1

/-- Bitwise complement of a 32-bit int mask, as a Nat below 2^32: the C++
expression ~mask applied to a nonneg mask under two's complement. -/
def uint32Not (mask : Nat) : Nat := UINT32_MAX ^^^ mask

/-! ### Chunk serialization (Chunk.cpp: WriteToFile / VerifyChunkDataFromFile /
InitializeFromFile), modelled at the byte level.  A chunk's block-type data is
a list of type-index bytes in block-index order (the WriteToFile loop walks
m_blocks linearly from 0 to BLOCKS_PER_CHUNK - 1). -/

/-- One iteration of the RLE loop body in Chunk::WriteToFile.  State is
(buffer of emitted (type, runLength) pairs, rollingType, rollingCount). -/
def rleStep (st : List (Nat × Nat) × Nat × Nat) (curr : Nat) :
    List (Nat × Nat) × Nat × Nat :=
  let buf := st.1
  let rollingType := st.2.1
  let rollingCount := st.2.2
  if curr ≠ rollingType then
    (buf ++ [(rollingType, rollingCount)], curr, 1)
  else
    -- on hitting the RLE limit the pair is flushed and the count restarts at 0,
    -- then the count is incremented as in the source
    let fl := if rollingCount = 255 then (buf ++ [(rollingType, rollingCount)], 0)
              else (buf, rollingCount)
    (fl.1, rollingType, fl.2 + 1)

/-- The (blockTypeIndex, runLength) pair stream emitted by Chunk::WriteToFile:
the loop over all blocks followed by the final push of the rolling pair.
rollingType starts at the type of block 0 and rollingCount at 0. -/
def writeChunkBody (types : List Nat) : List (Nat × Nat) :=
  let fin := types.foldl rleStep ([], types.headD 0, 0)
  fin.1 ++ [(fin.2.1, fin.2.2)]

/-- The 12-byte chunk file header (struct ChunkFileHeader_t): magic "SMCD",
version, the three axis bit widths, three unused bytes, format tag 'R'. -/
def chunkFileHeaderBytes : List Nat :=
  [83, 77, 67, 68, CHUNK_VERSION, CHUNK_BITS_X, CHUNK_BITS_Y, CHUNK_BITS_Z,
   0, 0, 0, 82]

/-- Full byte stream written by Chunk::WriteToFile: header then the pair
stream flattened to bytes. -/
def writeToFileBytes (types : List Nat) : List Nat :=
  chunkFileHeaderBytes ++ (writeChunkBody types).foldr (fun p acc => p.1 :: p.2 :: acc) []

/-- Sum of the runLength bytes of a pair stream. -/
def runSum (l : List (Nat × Nat)) : Nat := (l.map Prod.snd).sum

/-- Parses the body bytes after the header as (type, runLength) pairs, two
bytes at a time, exactly as the loops in VerifyChunkDataFromFile and
InitializeFromFile do.  A dangling final byte makes the loop read
data[byteIndex + 1] one byte past the end of the file buffer: that
out-of-bounds read is modelled as none. -/
def runPairs : List Nat → Option (List (Nat × Nat))
  | [] => some []
  | [_] => none
  | t :: c :: rest => (runPairs rest).map (fun l => (t, c) :: l)

/-- VerifyChunkDataFromFile.  The function memcpy's 12 header bytes out of
the file buffer before any check, so a file shorter than the header is an
out-of-bounds read (none).  Then the magic, version, three bit-width bytes
and the format tag are checked in order, each mismatch returning false, and
finally the runLength sum is compared against BLOCKS_PER_CHUNK. -/
def verifyChunkDataFromFile (file : List Nat) : Option Bool :=
  if file.length < 12 then none
  else if ¬ (file.take 4 = [83, 77, 67, 68]) then some false
  else if ¬ (file.getD 4 0 = CHUNK_VERSION) then some false
  else if ¬ (file.getD 5 0 = CHUNK_BITS_X) then some false
  else if ¬ (file.getD 6 0 = CHUNK_BITS_Y) then some false
  else if ¬ (file.getD 7 0 = CHUNK_BITS_Z) then some false
  else if ¬ (file.getD 11 0 = 82) then some false
  else
    match runPairs (file.drop 12) with
    | none => none
    | some ps => some (decide (runSum ps = BLOCKS_PER_CHUNK))

/-- Expansion of a pair stream back into a linear list of block type bytes:
each (type, runLength) pair writes runLength consecutive blocks of that
type, continuing at blocksLoadedSoFar, as in the InitializeFromFile loop. -/
def rleExpand (l : List (Nat × Nat)) : List Nat :=
  (l.map (fun p => List.replicate p.2 p.1)).flatten

/-- Result of Chunk::InitializeFromFile: oobFault marks an out-of-bounds
read of the file buffer, rejected is the recoverable validation failure
(the function returns false and the caller regenerates the chunk), loaded
carries the block-type bytes written into the chunk in block-index order. -/
inductive LoadResult where
  | oobFault : LoadResult
  | rejected : LoadResult
  | loaded : List Nat → LoadResult
deriving DecidableEq

/-- Chunk::InitializeFromFile at the byte level: verify, then re-walk the
body pairs writing each run into consecutive block indices. -/
def initializeFromFile (file : List Nat) : LoadResult :=
  match verifyChunkDataFromFile file with
  | none => .oobFault
  | some false => .rejected
  | some true =>
    match runPairs (file.drop 12) with
    | none => .oobFault
    | some ps => .loaded (rleExpand ps)

/-! ### Load-path safety (World::PopulateBlocksOnChunk) -/

/-- Outcome of populating a chunk that has a saved file on disk. -/
inductive PopulateOutcome where
  | fromFile : List Nat → PopulateOutcome
  | procedural : PopulateOutcome
deriving DecidableEq

/-- World::PopulateBlocksOnChunk for a coordinate whose chunk file exists
and holds the given bytes: a successful InitializeFromFile keeps the loaded
data, a validation failure falls back to procedural generation, and an
out-of-bounds read of the file buffer is a fault (none), not a fallback. -/
def populateBlocksOnChunk (file : List Nat) : Option PopulateOutcome :=
  match initializeFromFile file with
  | .oobFault => none
  | .rejected => some .procedural
  | .loaded ts => some (.fromFile ts)

/-! ### Block index layout (claim C7).  Chunk.inl is not in the source tree,
but BlockLocator.cpp pins the layout: the east (+X) step adds 1, the north
(+Y) step adds CHUNK_DIMENSIONS_X, the above (+Z) step adds
BLOCKS_PER_Z_LAYER, and the boundary tests use the three bit masks.  Block
coordinates are recovered from an index by mask and shift. -/

def GetBlockCoordsFromBlockIndex (idx : Nat) : Nat × Nat × Nat :=
  (idx &&& CHUNK_X_MASK,
   (idx &&& CHUNK_Y_MASK) >>> CHUNK_BITS_X,
   (idx &&& CHUNK_Z_MASK) >>> (CHUNK_BITS_X + CHUNK_BITS_Y))

def GetBlockIndexFromBlockCoords (x y z : Nat) : Nat :=
  x + y * CHUNK_DIMENSIONS_X + z * BLOCKS_PER_Z_LAYER

/-- Scan order asserted by the claim, from the spec's words: the n-th
position of an X-fastest, then-Z, then-Y enumeration of block coords. -/
def specScanOrderCoords (n : Nat) : Nat × Nat × Nat :=
  (n % CHUNK_DIMENSIONS_X,
   n / (CHUNK_DIMENSIONS_X * CHUNK_DIMENSIONS_Z),
   n / CHUNK_DIMENSIONS_X % CHUNK_DIMENSIONS_Z)

/-- The n-th position of an X-fastest, then-Y, then-Z enumeration of block
coords: the layout the code actually uses. -/
def xyzScanOrderCoords (n : Nat) : Nat × Nat × Nat :=
  (n % CHUNK_DIMENSIONS_X,
   n / CHUNK_DIMENSIONS_X % CHUNK_DIMENSIONS_Y,
   n / BLOCKS_PER_Z_LAYER)

/-! ### Block types, blocks, locators and the world data model -/

/-- Modelled from the spec: BlockType.hpp is not in the source tree.  A
block type is registered under a stable index and carries opacity, solidity
and emissive light level; blocks reference types by index. -/
structure BlockType where
  typeIndex : Nat
  isFullyOpaque : Bool
  isSolid : Bool
  internalLightLevel : Nat
deriving DecidableEq

def BLOCK_MAX_LIGHTING : Nat := 15

/-- Modelled from the spec: Block.hpp is not in the source tree.  A block is
a type index (uint8), two 4-bit light levels and the two flags. -/
structure Block where
  typeIndex : Nat
  indoor : Nat
  outdoor : Nat
  isPartOfSky : Bool
  isInDirtyLightingList : Bool
deriving DecidableEq

/-- Modelled from the spec: the missing-block sentinel reads as non-solid,
non-opaque, zero light (spec sections 3 and 7).  Its dirty-list flag reads
true so that AddBlockToDirtyLightingList on a missing locator is a silent
no-op, the only behaviour consistent with the spec's rule that out-of-world
accesses are never an error: with the flag clear, the missing locator would
be enqueued and the relaxation would later dereference its null chunk. -/
def MISSING_BLOCK : Block :=
  { typeIndex := 0, indoor := 0, outdoor := 0, isPartOfSky := false,
    isInDirtyLightingList := true }

/-- Chunks are identified by their integer 2D coordinate; the world's map
keys chunks by coordinate, so a coordinate stands in for the chunk pointer
(at most one chunk per coordinate, per the spec's active-set invariant). -/
abbrev ChunkCoord := Int × Int

/-- BlockLocator: a chunk reference (none = null pointer) and the block
index, stored as the two's-complement representative of the C++ int. -/
structure BlockLoc where
  chunk : Option ChunkCoord
  blockIndex : Nat
deriving DecidableEq

/-- BlockLocator(nullptr, -1), the missing locator built by ToAbove/ToBelow
at the world's vertical boundaries. -/
def missingLocator : BlockLoc := ⟨none, UINT32_MAX⟩

/-- World state: the block type registry, the active chunk set, per-chunk
block arrays, per-chunk disk-dirty flags and the dirty lighting queue. -/
structure WorldState where
  reg : Nat → BlockType
  active : List ChunkCoord
  blocks : ChunkCoord → Nat → Block
  needsSave : ChunkCoord → Bool
  dirtyQueue : List BlockLoc

/-- Chunk::GetEastNeighbor.  The neighbor back-references are kept exactly
consistent with the world's active set (spec section 3 invariant), so the
getter is derived from the active set: the adjacent coordinate if active,
null otherwise. -/
def GetEastNeighbor (w : WorldState) (c : ChunkCoord) : Option ChunkCoord :=
  if (c.1 + 1, c.2) ∈ w.active then some (c.1 + 1, c.2) else none

def GetWestNeighbor (w : WorldState) (c : ChunkCoord) : Option ChunkCoord :=
  if (c.1 - 1, c.2) ∈ w.active then some (c.1 - 1, c.2) else none

def GetNorthNeighbor (w : WorldState) (c : ChunkCoord) : Option ChunkCoord :=
  if (c.1, c.2 + 1) ∈ w.active then some (c.1, c.2 + 1) else none

def GetSouthNeighbor (w : WorldState) (c : ChunkCoord) : Option ChunkCoord :=
  if (c.1, c.2 - 1) ∈ w.active then some (c.1, c.2 - 1) else none

/-- BlockLocator::GetBlock: the sentinel for a null chunk reference,
otherwise the chunk's stored block. -/
def GetBlock (w : WorldState) (L : BlockLoc) : Block :=
  match L.chunk with
  | none => MISSING_BLOCK
  | some c => if c ∈ w.active then w.blocks c L.blockIndex else MISSING_BLOCK

/-- BlockLocator::IsValid: the chunk reference is non-null. -/
def IsValid (L : BlockLoc) : Bool := L.chunk.isSome

/-- BlockLocator::ToEast.  On the east face the code calls
m_chunk->GetEastNeighbor(): with a null chunk that is a null dereference,
modelled as none. -/
def ToEast (w : WorldState) (L : BlockLoc) : Option BlockLoc :=
  if L.blockIndex &&& CHUNK_X_MASK = CHUNK_X_MASK then
    match L.chunk with
    | none => none
    | some c => some ⟨GetEastNeighbor w c, L.blockIndex &&& uint32Not CHUNK_X_MASK⟩
  else
    some ⟨L.chunk, L.blockIndex + 1⟩

/-- BlockLocator::ToWest. -/
def ToWest (w : WorldState) (L : BlockLoc) : Option BlockLoc :=
  if L.blockIndex &&& CHUNK_X_MASK = 0 then
    match L.chunk with
    | none => none
    | some c => some ⟨GetWestNeighbor w c, L.blockIndex ||| CHUNK_X_MASK⟩
  else
    some ⟨L.chunk, L.blockIndex - 1⟩

/-- BlockLocator::ToNorth. -/
def ToNorth (w : WorldState) (L : BlockLoc) : Option BlockLoc :=
  if L.blockIndex &&& CHUNK_Y_MASK = CHUNK_Y_MASK then
    match L.chunk with
    | none => none
    | some c => some ⟨GetNorthNeighbor w c, L.blockIndex &&& uint32Not CHUNK_Y_MASK⟩
  else
    some ⟨L.chunk, L.blockIndex + CHUNK_DIMENSIONS_X⟩

/-- BlockLocator::ToSouth. -/
def ToSouth (w : WorldState) (L : BlockLoc) : Option BlockLoc :=
  if L.blockIndex &&& CHUNK_Y_MASK = 0 then
    match L.chunk with
    | none => none
    | some c => some ⟨GetSouthNeighbor w c, L.blockIndex ||| CHUNK_Y_MASK⟩
  else
    some ⟨L.chunk, L.blockIndex - CHUNK_DIMENSIONS_X⟩

/-- BlockLocator::ToAbove: total, the chunk pointer is never dereferenced
(no vertical chunk neighbors exist). -/
def ToAbove (L : BlockLoc) : BlockLoc :=
  if L.blockIndex &&& CHUNK_Z_MASK = CHUNK_Z_MASK then missingLocator
  else ⟨L.chunk, L.blockIndex + BLOCKS_PER_Z_LAYER⟩

/-- BlockLocator::ToBelow: total. -/
def ToBelow (L : BlockLoc) : BlockLoc :=
  if L.blockIndex &&& CHUNK_Z_MASK = 0 then missingLocator
  else ⟨L.chunk, L.blockIndex - BLOCKS_PER_Z_LAYER⟩

/-! ### Concrete worlds used as witnesses -/

def airBlockType : BlockType := ⟨0, false, false, 0⟩

def stoneBlockType : BlockType := ⟨1, true, true, 0⟩

def glowstoneBlockType : BlockType := ⟨2, false, true, 10⟩

def testRegistry : Nat → BlockType := fun i =>
  if i = 1 then stoneBlockType else if i = 2 then glowstoneBlockType else airBlockType

def airBlock : Block := ⟨0, 0, 0, false, false⟩

def stoneBlock : Block := ⟨1, 0, 0, false, false⟩

def emptyWorld : WorldState :=
  { reg := testRegistry, active := [], blocks := fun _ _ => airBlock,
    needsSave := fun _ => false, dirtyQueue := [] }

def singleChunkWorld : WorldState := { emptyWorld with active := [((0 : Int), (0 : Int))] }

def twoChunkWorld : WorldState :=
  { emptyWorld with active := [((0 : Int), (0 : Int)), ((1 : Int), (0 : Int))] }

/-! ### Lighting propagation (World.cpp: AddBlockToDirtyLightingList,
RemoveFrontBlockFromDirtyLightingList, RecalculateLightingForBlock,
UpdateLighting) -/

/-- Pointwise update of one stored block. -/
def updateBlock (w : WorldState) (c : ChunkCoord) (idx : Nat) (f : Block → Block) :
    WorldState :=
  { w with blocks := fun c2 i2 => if c2 = c ∧ i2 = idx then f (w.blocks c2 i2) else w.blocks c2 i2 }

/-- Block::SetIndoorLighting / SetOutdoorLighting: the light levels live in
4-bit fields, so stores are taken mod 16. -/
def setBlockLight (w : WorldState) (c : ChunkCoord) (idx : Nat) (ind outd : Nat) :
    WorldState :=
  updateBlock w c idx (fun b => { b with indoor := ind % 16, outdoor := outd % 16 })

/-- World::AddBlockToDirtyLightingList: skip if the block's flag is already
set (for a missing locator the sentinel's flag reads true, making the call a
no-op), otherwise set the flag and push the locator on the back of the
queue. -/
def AddBlockToDirtyLightingList (w : WorldState) (L : BlockLoc) : WorldState :=
  if (GetBlock w L).isInDirtyLightingList then w
  else
    match L.chunk with
    | none => w
    | some c =>
      { updateBlock w c L.blockIndex (fun b => { b with isInDirtyLightingList := true }) with
        dirtyQueue := w.dirtyQueue ++ [L] }

/-- World::RemoveFrontBlockFromDirtyLightingList: none when the queue is
empty (the assertion fires), otherwise pop the front locator and clear its
block's flag. -/
def RemoveFrontBlockFromDirtyLightingList (w : WorldState) :
    Option (BlockLoc × WorldState) :=
  match w.dirtyQueue with
  | [] => none
  | L :: rest =>
    let w1 := { w with dirtyQueue := rest }
    some (L, match L.chunk with
      | none => w1
      | some c => updateBlock w1 c L.blockIndex
          (fun b => { b with isInDirtyLightingList := false }))

/-- Block read through a directional step result; the sentinel if the step
itself faulted (never the case for the valid locators the queue holds). -/
def stepBlock (w : WorldState) (o : Option BlockLoc) : Block :=
  match o with
  | none => MISSING_BLOCK
  | some L => GetBlock w L

/-- The six neighbor blocks read by RecalculateLightingForBlock, in source
order: east, west, north, south, above, below. -/
def neighborBlocks (w : WorldState) (L : BlockLoc) : List Block :=
  [stepBlock w (ToEast w L), stepBlock w (ToWest w L), stepBlock w (ToNorth w L),
   stepBlock w (ToSouth w L), GetBlock w (ToAbove L), GetBlock w (ToBelow L)]

/-- Maximum of the neighbors' indoor light values. -/
def maxIndoor (nbrs : List Block) : Nat := nbrs.foldr (fun b m => Nat.max b.indoor m) 0

/-- Maximum of the neighbors' outdoor light values. -/
def maxOutdoor (nbrs : List Block) : Nat := nbrs.foldr (fun b m => Nat.max b.outdoor m) 0

/-- Expected indoor light of RecalculateLightingForBlock: the block's own
emission for an opaque block, else max(maxNeighborIndoor - 1, emission);
the int subtraction that can reach -1 coincides with truncated Nat
subtraction here because the emission is nonnegative. -/
def expectedIndoorLight (w : WorldState) (curr : Block) (nbrs : List Block) : Nat :=
  if (w.reg curr.typeIndex).isFullyOpaque then (w.reg curr.typeIndex).internalLightLevel
  else Nat.max (maxIndoor nbrs - 1) (w.reg curr.typeIndex).internalLightLevel

/-- Expected outdoor light of RecalculateLightingForBlock: 15 for a sky
block, clamp(maxNeighborOutdoor - 1, 0, 15) for a non-opaque block, 0
otherwise. -/
def expectedOutdoorLight (w : WorldState) (curr : Block) (nbrs : List Block) : Nat :=
  if curr.isPartOfSky then BLOCK_MAX_LIGHTING
  else if ¬ (w.reg curr.typeIndex).isFullyOpaque then
    min (maxOutdoor nbrs - 1) BLOCK_MAX_LIGHTING
  else 0

/-- World::RecalculateLightingForBlock.  The four lateral steps dereference
the chunk pointer on their boundary branches, so the whole call faults
(none) when that happens on a null-chunk locator; the queue only ever holds
valid locators, for which every step succeeds.  If either expected value
differs from the stored one, both are stored and all six neighbors are
marked dirty in source order. -/
def RecalculateLightingForBlock (w : WorldState) (L : BlockLoc) : Option WorldState := do
  let eL ← ToEast w L
  let wL ← ToWest w L
  let nL ← ToNorth w L
  let sL ← ToSouth w L
  let aL := ToAbove L
  let bL := ToBelow L
  let curr := GetBlock w L
  let nbrs := [GetBlock w eL, GetBlock w wL, GetBlock w nL, GetBlock w sL,
               GetBlock w aL, GetBlock w bL]
  let expInd := expectedIndoorLight w curr nbrs
  let expOut := expectedOutdoorLight w curr nbrs
  if expInd ≠ curr.indoor ∨ expOut ≠ curr.outdoor then
    let w1 := match L.chunk with
      | none => w
      | some c => setBlockLight w c L.blockIndex expInd expOut
    pure (AddBlockToDirtyLightingList (AddBlockToDirtyLightingList
      (AddBlockToDirtyLightingList (AddBlockToDirtyLightingList
        (AddBlockToDirtyLightingList (AddBlockToDirtyLightingList w1 eL) wL) nL) sL)
      aL) bL)
  else
    pure w

/-- World::UpdateLighting: drain the dirty queue, recalculating the front
block each iteration.  The C++ loop has no fuel; a some result means the
loop terminated, necessarily with an empty queue. -/
def UpdateLighting : Nat → WorldState → Option WorldState
  | 0, w =>
    match w.dirtyQueue with
    | [] => some w
    | _ :: _ => none
  | fuel + 1, w =>
    match RemoveFrontBlockFromDirtyLightingList w with
    | none => some w
    | some (L, w1) => do
      let w2 ← RecalculateLightingForBlock w1 L
      UpdateLighting fuel w2

/-- A locator referencing an existing block: non-null chunk reference to an
active chunk and an in-range block index. -/
def validLoc (w : WorldState) (L : BlockLoc) : Prop :=
  ∃ c, L.chunk = some c ∧ c ∈ w.active ∧ L.blockIndex < BLOCKS_PER_CHUNK

/-- The relaxation fixed-point equations of the claim at one block: the
stored light levels equal the recalculated expected levels. -/
def lightingCorrect (w : WorldState) (L : BlockLoc) : Prop :=
  (GetBlock w L).indoor = expectedIndoorLight w (GetBlock w L) (neighborBlocks w L)
  ∧ (GetBlock w L).outdoor = expectedOutdoorLight w (GetBlock w L) (neighborBlocks w L)

/-- Invariant tying the dirty queue to the block flags and to the blocks
still violating their equations: every queued locator is valid, the queue
has no duplicates, a valid block's flag is set exactly when it is queued,
all stored light levels fit their 4-bit fields, and every valid block whose
lighting is not yet correct is in the queue. -/
def LightingInv (w : WorldState) : Prop :=
  (∀ L ∈ w.dirtyQueue, validLoc w L)
  ∧ w.dirtyQueue.Nodup
  ∧ (∀ L, validLoc w L → ((GetBlock w L).isInDirtyLightingList = true ↔ L ∈ w.dirtyQueue))
  ∧ (∀ c i, (w.blocks c i).indoor ≤ 15 ∧ (w.blocks c i).outdoor ≤ 15)
  ∧ (∀ L, validLoc w L → ¬ lightingCorrect w L → L ∈ w.dirtyQueue)

/-! ### Congruence of the fixed-point predicate under flag-only changes -/

/-- Two states agreeing on everything the relaxation reads (registry, active
set, and all block fields except the dirty flag). -/
def SameLighting (w w' : WorldState) : Prop :=
  w'.reg = w.reg ∧ w'.active = w.active ∧
  ∀ c i, (w'.blocks c i).typeIndex = (w.blocks c i).typeIndex
    ∧ (w'.blocks c i).indoor = (w.blocks c i).indoor
    ∧ (w'.blocks c i).outdoor = (w.blocks c i).outdoor
    ∧ (w'.blocks c i).isPartOfSky = (w.blocks c i).isPartOfSky

/-- Folding AddBlockToDirtyLightingList over a list of targets, as the
six-fold enqueue of RecalculateLightingForBlock does. -/
def addAllDirty (w : WorldState) (ls : List BlockLoc) : WorldState :=
  ls.foldl AddBlockToDirtyLightingList w


/-! ### InitializeLightingForChunk (World.cpp 546-552, 685-880) -/

/-- World::InitializeSkyBlocksForChunk pass 1, one column of the chunk: scan
downward from z = n-1, flagging each non-opaque block as sky with full
outdoor light, stopping at the first fully opaque block. -/
def skyColumnScan (c : ChunkCoord) (x y : Nat) : Nat → WorldState → WorldState
  | 0, w => w
  | n + 1, w =>
    if (w.reg (GetBlock w ⟨some c, GetBlockIndexFromBlockCoords x y n⟩).typeIndex).isFullyOpaque
        = true then w
    else skyColumnScan c x y n
      (updateBlock w c (GetBlockIndexFromBlockCoords x y n)
        (fun b => { b with outdoor := BLOCK_MAX_LIGHTING, isPartOfSky := true }))

/-- World::InitializeSkyBlocksForChunk pass 1: every column of the chunk,
y outer, x inner, scanned from the top layer down. -/
def initializeSkyPass1 (w : WorldState) (c : ChunkCoord) : WorldState :=
  (List.range CHUNK_DIMENSIONS_Y).foldl (fun w y =>
    (List.range CHUNK_DIMENSIONS_X).foldl (fun w x =>
      skyColumnScan c x y CHUNK_DIMENSIONS_Z w) w) w

/-- One lateral-neighbor check of sky pass 2: if the stepped locator is valid
(non-null chunk) and its block is neither fully opaque nor already sky, it is
enqueued.  (The source computes the four step locators before the enqueues;
enqueuing changes neither the active set nor any chunk pointer, so stepping
from the updated state is the same.) -/
def skyPass2Step (w : WorldState) (o : Option BlockLoc) : WorldState :=
  match o with
  | none => w
  | some Y =>
    match Y.chunk with
    | none => w
    | some _ =>
      if (w.reg (GetBlock w Y).typeIndex).isFullyOpaque = false
          ∧ (GetBlock w Y).isPartOfSky = false
      then AddBlockToDirtyLightingList w Y
      else w

/-- World::InitializeSkyBlocksForChunk pass 2: for every sky block of the
chunk, enqueue its four lateral neighbors that are valid, non-opaque and not
sky, in east, west, north, south order. -/
def initializeSkyPass2 (w : WorldState) (c : ChunkCoord) : WorldState :=
  (List.range BLOCKS_PER_CHUNK).foldl (fun w idx =>
    if (GetBlock w ⟨some c, idx⟩).isPartOfSky = true then
      skyPass2Step (skyPass2Step (skyPass2Step
        (skyPass2Step w (ToEast w ⟨some c, idx⟩)) (ToWest w ⟨some c, idx⟩))
        (ToNorth w ⟨some c, idx⟩)) (ToSouth w ⟨some c, idx⟩)
    else w) w

/-- World::InitializeLightSourceBlocksForChunk: enqueue every non-opaque block
of the chunk whose type has positive emissive light. -/
def initializeLightSourceBlocksForChunk (w : WorldState) (c : ChunkCoord) : WorldState :=
  (List.range BLOCKS_PER_CHUNK).foldl (fun w idx =>
    if (w.reg (GetBlock w ⟨some c, idx⟩).typeIndex).isFullyOpaque = false
        ∧ 0 < (w.reg (GetBlock w ⟨some c, idx⟩).typeIndex).internalLightLevel
    then AddBlockToDirtyLightingList w ⟨some c, idx⟩
    else w) w

/-- Per-block body of SetNeighborEdgeBlocksToDirtyForChunk: enqueue the block
unless it is fully opaque. -/
def addDirtyIfNotOpaque (w : WorldState) (L : BlockLoc) : WorldState :=
  if (w.reg (GetBlock w L).typeIndex).isFullyOpaque = true then w
  else AddBlockToDirtyLightingList w L

/-- The locators of a chunk face at fixed x, iterated z outer and y inner, as
in the east/west branches of SetNeighborEdgeBlocksToDirtyForChunk. -/
def edgeLocatorsYZ (c : ChunkCoord) (x : Nat) : List BlockLoc :=
  (List.range CHUNK_DIMENSIONS_Z).flatMap (fun z =>
    (List.range CHUNK_DIMENSIONS_Y).map (fun y =>
      ⟨some c, GetBlockIndexFromBlockCoords x y z⟩))

/-- The locators of a chunk face at fixed y, iterated z outer and x inner, as
in the north/south branches of SetNeighborEdgeBlocksToDirtyForChunk. -/
def edgeLocatorsXZ (c : ChunkCoord) (y : Nat) : List BlockLoc :=
  (List.range CHUNK_DIMENSIONS_Z).flatMap (fun z =>
    (List.range CHUNK_DIMENSIONS_X).map (fun x =>
      ⟨some c, GetBlockIndexFromBlockCoords x y z⟩))

/-- World::SetNeighborEdgeBlocksToDirtyForChunk, transcribed branch by branch:
east neighbor's x = 0 face, west neighbor's x = CHUNK_DIMENSIONS_X - 1 face,
north neighbor's y = 0 face, and — exactly as the source reads — the south
neighbor's y = 0 face (IntVector3(xIndex, 0, zIndex) in the south branch too).
The four neighbor lookups happen before any enqueue; enqueues do not change
the active set, so looking them up from w is the source's order. -/
def setNeighborEdgeBlocksToDirtyForChunk (w : WorldState) (c : ChunkCoord) : WorldState :=
  let w1 := match GetEastNeighbor w c with
    | none => w
    | some e => (edgeLocatorsYZ e 0).foldl addDirtyIfNotOpaque w
  let w2 := match GetWestNeighbor w c with
    | none => w1
    | some e => (edgeLocatorsYZ e (CHUNK_DIMENSIONS_X - 1)).foldl addDirtyIfNotOpaque w1
  let w3 := match GetNorthNeighbor w c with
    | none => w2
    | some e => (edgeLocatorsXZ e 0).foldl addDirtyIfNotOpaque w2
  match GetSouthNeighbor w c with
  | none => w3
  | some e => (edgeLocatorsXZ e 0).foldl addDirtyIfNotOpaque w3

/-- World::InitializeLightingForChunk: sky pass 1 and 2, then light sources,
then the neighbor edge seeding. -/
def initializeLightingForChunk (w : WorldState) (c : ChunkCoord) : WorldState :=
  setNeighborEdgeBlocksToDirtyForChunk
    (initializeLightSourceBlocksForChunk
      (initializeSkyPass2 (initializeSkyPass1 w c) c) c) c

/-- The C8 scenario: chunk (0,0) is being activated with all-stone content;
its south neighbor (0,-1) is active, all stone except one air block on its
north face at coords (0, 15, 0), block index 240. -/
def c8World : WorldState :=
  { reg := testRegistry,
    active := [((0 : Int), (0 : Int)), ((0 : Int), (-1 : Int))],
    blocks := fun c i =>
      if c = ((0 : Int), (-1 : Int)) ∧ i = 240 then airBlock else stoneBlock,
    needsSave := fun _ => false,
    dirtyQueue := [] }


/-! ### Dig and place (World.cpp 62-101, 962-972) -/

/-- BlockType::AIR_TYPE_INDEX.  Modelled from the spec: BlockType.hpp is not
in the tree; per spec section 2 air is the type with index 0. -/
def AIR_TYPE_INDEX : Nat := 0

/-- Chunk::SetBlockTypeAtBlockIndex.  Modelled from the spec: its definition
lives in the missing Chunk headers; per spec section 2 a block stores its type
index, and as a Chunk member it has no access to the World dirty-lighting
queue (Chunk.cpp never calls a World method), so it writes the block's type
index and touches no lighting queue state. -/
def setBlockTypeAtBlockIndex (w : WorldState) (c : ChunkCoord) (idx t : Nat) : WorldState :=
  updateBlock w c idx (fun b => { b with typeIndex := t })

/-- Chunk::SetNeedsToBeSavedToDisk(true) on the chunk at coordinate c. -/
def setNeedsSave (w : WorldState) (c : ChunkCoord) : WorldState :=
  { w with needsSave := fun c2 => if c2 = c then true else w.needsSave c2 }

/-- World::DigBlock: set the hit block to air, mark its chunk as needing a
save, then enqueue the block for relighting. -/
def digBlock (w : WorldState) (c : ChunkCoord) (idx : Nat) : WorldState :=
  AddBlockToDirtyLightingList
    (setNeedsSave (setBlockTypeAtBlockIndex w c idx AIR_TYPE_INDEX) c) ⟨some c, idx⟩

/-- The place-block path of World::ProcessInput (World.cpp 85-99).  The
stepped locator's chunk coordinate and block index are taken as inputs
(BlockLocator::StepInCoordDirection lives in the missing BlockLocator
headers); the path sets the placed block's type and the chunk's save flag and
does nothing else — in particular it never calls AddBlockToDirtyLightingList. -/
def placeBlockFromInput (w : WorldState) (c : ChunkCoord) (idx t : Nat) : WorldState :=
  setNeedsSave (setBlockTypeAtBlockIndex w c idx t) c


/-! ### Chunk activation and deactivation selection (World.cpp 490-541, 559-592)
Float arithmetic is modelled exactly over the rationals. -/

/-- Squared distance from the camera's XY position to the chunk's XY center
(chunk base at (16x, 16y) plus half the chunk footprint). -/
def distSqToChunkCenter (cam : ℚ × ℚ) (c : ChunkCoord) : ℚ :=
  ((c.1 : ℚ) * 16 + 8 - cam.1) ^ 2 + ((c.2 : ℚ) * 16 + 8 - cam.2) ^ 2

/-- Loop body of GetClosestInactiveChunkCoordsToPlayerWithinActivationRange:
skip active chunks; otherwise keep the candidate when its squared distance is
strictly below the running minimum (initialised to the squared activation
range). -/
def activationScanStep (w : WorldState) (cam : ℚ × ℚ)
    (acc : Option ChunkCoord × ℚ) (cc : ChunkCoord) : Option ChunkCoord × ℚ :=
  if cc ∈ w.active then acc
  else if distSqToChunkCenter cam cc < acc.2 then (some cc, distSqToChunkCenter cam cc)
  else acc

/-- The scan window from startChunk to endChunk, y outer and x inner, as in
the activation search's double loop. -/
def chunkScanWindow (s e : ChunkCoord) : List ChunkCoord :=
  (List.range (e.2 - s.2 + 1).toNat).flatMap (fun dy =>
    (List.range (e.1 - s.1 + 1).toNat).map (fun dx => (s.1 + dx, s.2 + dy)))

/-- World::GetClosestInactiveChunkCoordsToPlayerWithinActivationRange: scan
the window of side 2*ceil(range/16)+1 around the camera's chunk, tracking the
inactive chunk of least squared distance strictly below the squared range;
returns the selected coordinate (none when the search found nothing). -/
def getClosestInactiveChunkCoordsWithinActivationRange (w : WorldState) (cam : ℚ × ℚ)
    (activationRange : ℚ) : Option ChunkCoord :=
  ((chunkScanWindow
      (⌊cam.1 / 16⌋ - ⌈activationRange / 16⌉, ⌊cam.2 / 16⌋ - ⌈activationRange / 16⌉)
      (⌊cam.1 / 16⌋ + ⌈activationRange / 16⌉, ⌊cam.2 / 16⌋ + ⌈activationRange / 16⌉)).foldl
    (activationScanStep w cam) (none, activationRange * activationRange)).1

/-- Loop body of GetFarthestActiveChunkToPlayerOutsideDeactivationRange: keep
the chunk when its squared distance strictly exceeds both the squared
deactivation range and the running maximum (initialised to 0). -/
def deactivationScanStep (cam : ℚ × ℚ) (dSq : ℚ)
    (acc : Option ChunkCoord × ℚ) (cc : ChunkCoord) : Option ChunkCoord × ℚ :=
  if distSqToChunkCenter cam cc > dSq ∧ distSqToChunkCenter cam cc > acc.2
  then (some cc, distSqToChunkCenter cam cc)
  else acc

/-- World::GetFarthestActiveChunkToPlayerOutsideDeactivationRange: scan all
active chunks for the farthest one strictly outside the squared
(range + offset) threshold. -/
def getFarthestActiveChunkOutsideDeactivationRange (w : WorldState) (cam : ℚ × ℚ)
    (activationRange deactivationOffset : ℚ) : Option ChunkCoord :=
  (w.active.foldl
    (deactivationScanStep cam
      ((activationRange + deactivationOffset) * (activationRange + deactivationOffset)))
    (none, 0)).1


/-! ### Raycast (World.cpp 333-446)
Float arithmetic is modelled exactly over the rationals; the (int) cast of
the positive step count is the floor. -/

/-- RaycastResult_t (World.hpp): DidImpact() is impactFraction < 1. -/
structure RayResult where
  startPosition : ℚ × ℚ × ℚ
  direction : ℚ × ℚ × ℚ
  maxDistance : ℚ
  endPosition : ℚ × ℚ × ℚ
  impactPosition : ℚ × ℚ × ℚ
  impactFraction : ℚ
  impactDistance : ℚ
  impactBlock : BlockLoc
  impactNormal : ℚ × ℚ × ℚ

/-- RaycastResult_t::DidImpact. -/
def RayResult.didImpact (r : RayResult) : Bool := decide (r.impactFraction < 1)

/-- FloorPositionToIntegerCoords: componentwise floor. -/
def flooredCoords (p : ℚ × ℚ × ℚ) : Int × Int × Int := (⌊p.1⌋, ⌊p.2.1⌋, ⌊p.2.2⌋)

/-- The sample position after k sub-steps of length 1/RAYCAST_STEPS_PER_BLOCK
= 1/100 along the direction. -/
def rayPos (start dir : ℚ × ℚ × ℚ) (k : Nat) : ℚ × ℚ × ℚ :=
  (start.1 + (k : ℚ) / 100 * dir.1,
   start.2.1 + (k : ℚ) / 100 * dir.2.1,
   start.2.2 + (k : ℚ) / 100 * dir.2.2)

/-- totalSteps = (int)(maxDistance * RAYCAST_STEPS_PER_BLOCK). -/
def totalSteps (maxDistance : ℚ) : Nat := (⌊maxDistance * 100⌋).toNat

/-- World::GetBlockLocatorForFlooredPosition: find the active chunk whose XY
footprint contains the floored position (floor division by 16) and build the
locator from the chunk-local coordinates. -/
def getBlockLocatorForFlooredPosition (w : WorldState) (p : Int × Int × Int) : BlockLoc :=
  if (Int.fdiv p.1 16, Int.fdiv p.2.1 16) ∈ w.active then
    ⟨some (Int.fdiv p.1 16, Int.fdiv p.2.1 16),
      GetBlockIndexFromBlockCoords (p.1 - 16 * Int.fdiv p.1 16).toNat
        (p.2.1 - 16 * Int.fdiv p.2.1 16).toNat p.2.2.toNat⟩
  else ⟨none, 0⟩

/-- Block::IsSolid, read through the block's type. -/
def isSolidAt (w : WorldState) (L : BlockLoc) : Bool :=
  (w.reg (GetBlock w L).typeIndex).isSolid

/-- The ray's end position start + direction * maxDistance. -/
def rayEndPosition (start dir : ℚ × ℚ × ℚ) (maxDist : ℚ) : ℚ × ℚ × ℚ :=
  (start.1 + dir.1 * maxDist, start.2.1 + dir.2.1 * maxDist, start.2.2 + dir.2.2 * maxDist)

/-- The no-hit result: impact fraction exactly 1, impact at the end position. -/
def noHitResult (w : WorldState) (start dir : ℚ × ℚ × ℚ) (maxDist : ℚ) : RayResult :=
  ⟨start, dir, maxDist, rayEndPosition start dir maxDist, rayEndPosition start dir maxDist,
   1, maxDist,
   getBlockLocatorForFlooredPosition w (flooredCoords (rayEndPosition start dir maxDist)),
   ((-1 : ℚ) * dir.1, (-1 : ℚ) * dir.2.1, (-1 : ℚ) * dir.2.2)⟩

/-- An impact result at the given sample. -/
def mkImpact (start dir : ℚ × ℚ × ℚ) (maxDist dist : ℚ) (currPos : ℚ × ℚ × ℚ)
    (L : BlockLoc) (normal : Int × Int × Int) : RayResult :=
  ⟨start, dir, maxDist, rayEndPosition start dir maxDist, currPos,
   dist / maxDist, dist, L, ((normal.1 : ℚ), (normal.2.1 : ℚ), (normal.2.2 : ℚ))⟩

/-- The raycast march: one iteration per remaining sub-step.  Solidity is only
tested when the floored coordinates changed since the last sub-step; on a
change the X, then Y, then Z component is stepped separately (adding a zero
component is the identity, so the unconditional adds below equal the source's
guarded adds, and the solidity test keeps the source's d ≠ 0 guard). -/
def raycastLoop (w : WorldState) (start dir : ℚ × ℚ × ℚ) (maxDist : ℚ) :
    Nat → Nat → Int × Int × Int → RayResult
  | 0, _, _ => noHitResult w start dir maxDist
  | remaining + 1, stepIndex, lastFloored =>
    if flooredCoords (rayPos start dir stepIndex) = lastFloored then
      raycastLoop w start dir maxDist remaining (stepIndex + 1) lastFloored
    else
      if ((flooredCoords (rayPos start dir stepIndex)).1 - lastFloored.1 ≠ 0
          ∧ isSolidAt w (getBlockLocatorForFlooredPosition w
              ((flooredCoords (rayPos start dir stepIndex)).1,
               lastFloored.2.1, lastFloored.2.2)) = true) then
        mkImpact start dir maxDist ((stepIndex : ℚ) / 100) (rayPos start dir stepIndex)
          (getBlockLocatorForFlooredPosition w
            ((flooredCoords (rayPos start dir stepIndex)).1, lastFloored.2.1, lastFloored.2.2))
          (-((flooredCoords (rayPos start dir stepIndex)).1 - lastFloored.1), 0, 0)
      else if ((flooredCoords (rayPos start dir stepIndex)).2.1 - lastFloored.2.1 ≠ 0
          ∧ isSolidAt w (getBlockLocatorForFlooredPosition w
              ((flooredCoords (rayPos start dir stepIndex)).1,
               (flooredCoords (rayPos start dir stepIndex)).2.1, lastFloored.2.2)) = true) then
        mkImpact start dir maxDist ((stepIndex : ℚ) / 100) (rayPos start dir stepIndex)
          (getBlockLocatorForFlooredPosition w
            ((flooredCoords (rayPos start dir stepIndex)).1,
             (flooredCoords (rayPos start dir stepIndex)).2.1, lastFloored.2.2))
          (0, -((flooredCoords (rayPos start dir stepIndex)).2.1 - lastFloored.2.1), 0)
      else if ((flooredCoords (rayPos start dir stepIndex)).2.2 - lastFloored.2.2 ≠ 0
          ∧ isSolidAt w (getBlockLocatorForFlooredPosition w
              (flooredCoords (rayPos start dir stepIndex))) = true) then
        mkImpact start dir maxDist ((stepIndex : ℚ) / 100) (rayPos start dir stepIndex)
          (getBlockLocatorForFlooredPosition w (flooredCoords (rayPos start dir stepIndex)))
          (0, 0, -((flooredCoords (rayPos start dir stepIndex)).2.2 - lastFloored.2.2))
      else
        raycastLoop w start dir maxDist remaining (stepIndex + 1)
          (flooredCoords (rayPos start dir stepIndex))

/-- World::Raycast. -/
def raycast (w : WorldState) (start dir : ℚ × ℚ × ℚ) (maxDist : ℚ) : RayResult :=
  raycastLoop w start dir maxDist (totalSteps maxDist) 0 (flooredCoords start)

/-- An all-stone single-chunk world: every block of the active chunk (0,0) is
solid. -/
def c10World : WorldState := { singleChunkWorld with blocks := fun _ _ => stoneBlock }

/-! ### Facts about the RLE encoder -/

theorem runSum_append (l₁ l₂ : List (Nat × Nat)) :
    runSum (l₁ ++ l₂) = runSum l₁ + runSum l₂ := by
  simp [runSum]

theorem rleExpand_append (l₁ l₂ : List (Nat × Nat)) :
    rleExpand (l₁ ++ l₂) = rleExpand l₁ ++ rleExpand l₂ := by
  simp [rleExpand]

/-- Loop invariant of the WriteToFile RLE loop: the emitted run lengths plus
the rolling count always account for exactly the blocks consumed so far. -/
theorem rle_fold_sum (ts : List Nat) : ∀ (buf : List (Nat × Nat)) (rt rc : Nat),
    runSum (ts.foldl rleStep (buf, rt, rc)).1 + (ts.foldl rleStep (buf, rt, rc)).2.2
      = runSum buf + rc + ts.length := by
  induction ts with
  | nil => intro buf rt rc; simp
  | cons t ts ih =>
    intro buf rt rc
    simp only [List.foldl_cons]
    by_cases h : t = rt
    · by_cases h255 : rc = 255
      · rw [show rleStep (buf, rt, rc) t = (buf ++ [(rt, rc)], rt, 1) by
          simp [rleStep, h, h255]]
        rw [ih, runSum_append]
        simp [runSum, h255, List.length_cons]
        omega
      · rw [show rleStep (buf, rt, rc) t = (buf, rt, rc + 1) by
          simp [rleStep, h, h255]]
        rw [ih]
        simp only [List.length_cons]
        omega
    · rw [show rleStep (buf, rt, rc) t = (buf ++ [(rt, rc)], t, 1) by
        simp [rleStep, h]]
      rw [ih, runSum_append]
      simp [runSum, List.length_cons]
      omega

/-- Loop invariant of the WriteToFile RLE loop: every emitted run length
stays between 1 and 255, and so does the rolling count. -/
theorem rle_fold_counts (ts : List Nat) : ∀ (buf : List (Nat × Nat)) (rt rc : Nat),
    (∀ p ∈ buf, 1 ≤ p.2 ∧ p.2 ≤ 255) → 1 ≤ rc → rc ≤ 255 →
    (∀ p ∈ (ts.foldl rleStep (buf, rt, rc)).1, 1 ≤ p.2 ∧ p.2 ≤ 255)
    ∧ 1 ≤ (ts.foldl rleStep (buf, rt, rc)).2.2
    ∧ (ts.foldl rleStep (buf, rt, rc)).2.2 ≤ 255 := by
  induction ts with
  | nil => intro buf rt rc hbuf h1 h255; exact ⟨hbuf, h1, h255⟩
  | cons t ts ih =>
    intro buf rt rc hbuf h1 h255
    simp only [List.foldl_cons]
    by_cases h : t = rt
    · by_cases hc : rc = 255
      · rw [show rleStep (buf, rt, rc) t = (buf ++ [(rt, rc)], rt, 1) by
          simp [rleStep, h, hc]]
        refine ih _ _ _ ?_ (by omega) (by omega)
        intro p hp
        rcases List.mem_append.1 hp with hp | hp
        · exact hbuf p hp
        · simp at hp; subst hp; omega
      · rw [show rleStep (buf, rt, rc) t = (buf, rt, rc + 1) by
          simp [rleStep, h, hc]]
        exact ih _ _ _ hbuf (by omega) (by omega)
    · rw [show rleStep (buf, rt, rc) t = (buf ++ [(rt, rc)], t, 1) by
        simp [rleStep, h]]
      refine ih _ _ _ ?_ (by omega) (by omega)
      intro p hp
      rcases List.mem_append.1 hp with hp | hp
      · exact hbuf p hp
      · simp at hp; subst hp; omega

/-- Loop invariant of the WriteToFile RLE loop: expanding the emitted pairs
together with the rolling pair reproduces the blocks consumed so far. -/
theorem rle_fold_expand (ts : List Nat) : ∀ (buf : List (Nat × Nat)) (rt rc : Nat),
    rleExpand ((ts.foldl rleStep (buf, rt, rc)).1
        ++ [((ts.foldl rleStep (buf, rt, rc)).2.1, (ts.foldl rleStep (buf, rt, rc)).2.2)])
      = rleExpand buf ++ List.replicate rc rt ++ ts := by
  induction ts with
  | nil => intro buf rt rc; simp [rleExpand_append, rleExpand]
  | cons t ts ih =>
    intro buf rt rc
    simp only [List.foldl_cons]
    by_cases h : t = rt
    · by_cases hc : rc = 255
      · rw [show rleStep (buf, rt, rc) t = (buf ++ [(rt, rc)], rt, 1) by
          simp [rleStep, h, hc]]
        rw [ih, rleExpand_append]
        subst h hc
        simp only [rleExpand, List.map_cons, List.map_nil, List.flatten_cons,
          List.flatten_nil, List.append_nil, List.replicate_one, List.append_assoc,
          List.singleton_append]
      · rw [show rleStep (buf, rt, rc) t = (buf, rt, rc + 1) by
          simp [rleStep, h, hc]]
        rw [ih]
        subst h
        rw [List.replicate_succ']
        simp
    · rw [show rleStep (buf, rt, rc) t = (buf ++ [(rt, rc)], t, 1) by
        simp [rleStep, h]]
      rw [ih, rleExpand_append]
      simp [rleExpand]

/-- Parsing the flattened byte form of a pair stream recovers the stream. -/
theorem runPairs_flatten (l : List (Nat × Nat)) :
    runPairs (l.foldr (fun p acc => p.1 :: p.2 :: acc) []) = some l := by
  induction l with
  | nil => rfl
  | cons p l ih => simp [runPairs, ih]

/-- Run-length sum of the emitted body equals the number of blocks. -/
theorem writeChunkBody_runSum (types : List Nat) :
    runSum (writeChunkBody types) = types.length := by
  unfold writeChunkBody
  have h := rle_fold_sum types [] (types.headD 0) 0
  rw [runSum_append]
  simp only [runSum, List.map_cons, List.map_nil, List.sum_cons, List.sum_nil] at h ⊢
  omega

/-- Expanding the emitted body reproduces the chunk block types. -/
theorem writeChunkBody_expand (types : List Nat) :
    rleExpand (writeChunkBody types) = types := by
  unfold writeChunkBody
  have h := rle_fold_expand types [] (types.headD 0) 0
  simpa using h

theorem writeToFileBytes_eq (types : List Nat) :
    writeToFileBytes types
      = 83 :: 77 :: 67 :: 68 :: CHUNK_VERSION :: CHUNK_BITS_X :: CHUNK_BITS_Y ::
        CHUNK_BITS_Z :: 0 :: 0 :: 0 :: 82 ::
        (writeChunkBody types).foldr (fun p acc => p.1 :: p.2 :: acc) [] := rfl

theorem verify_writeToFileBytes (types : List Nat)
    (hlen : types.length = BLOCKS_PER_CHUNK) :
    verifyChunkDataFromFile (writeToFileBytes types) = some true := by
  rw [writeToFileBytes_eq]
  unfold verifyChunkDataFromFile
  simp only [List.length_cons, List.take_succ_cons, List.take_zero,
    List.getD_cons_succ, List.getD_cons_zero, List.drop_succ_cons, List.drop_zero]
  rw [if_neg (by omega), if_neg (by simp), if_neg (by simp), if_neg (by simp),
    if_neg (by simp), if_neg (by simp), if_neg (by simp), runPairs_flatten]
  simp [writeChunkBody_runSum, hlen]

/-- C1.  Writing a chunk's block types to file bytes and then loading those
bytes back yields exactly the same block-type data at every block index.
WriteToFile followed by InitializeFromFile is the identity on type data. -/
theorem C1_serialization_roundTrip (types : List Nat)
    (hlen : types.length = BLOCKS_PER_CHUNK) (hbytes : ∀ t ∈ types, t < 256) :
    initializeFromFile (writeToFileBytes types) = LoadResult.loaded types := by
  unfold initializeFromFile
  rw [verify_writeToFileBytes types hlen]
  rw [show (writeToFileBytes types).drop 12
      = (writeChunkBody types).foldr (fun p acc => p.1 :: p.2 :: acc) [] from by
    rw [writeToFileBytes_eq]
    simp only [List.drop_succ_cons, List.drop_zero]]
  rw [runPairs_flatten]
  show LoadResult.loaded (rleExpand (writeChunkBody types)) = LoadResult.loaded types
  rw [writeChunkBody_expand]

/-- C1 witness: the round trip evaluated on a concrete full chunk. -/
theorem C1_serialization_roundTrip_witness :
    (List.replicate BLOCKS_PER_CHUNK 3).length = BLOCKS_PER_CHUNK
    ∧ (∀ t ∈ List.replicate BLOCKS_PER_CHUNK 3, t < 256)
    ∧ initializeFromFile (writeToFileBytes (List.replicate BLOCKS_PER_CHUNK 3))
        = LoadResult.loaded (List.replicate BLOCKS_PER_CHUNK 3) :=
  ⟨by simp, by intro t ht; rcases List.eq_of_mem_replicate ht with rfl; omega,
   C1_serialization_roundTrip _ (by simp)
     (by intro t ht; rcases List.eq_of_mem_replicate ht with rfl; omega)⟩

/-- C6.  For every full chunk the emitted run lengths sum to exactly
BLOCKS_PER_CHUNK, and every run length lies between 1 and 255.  In
particular no emitted run-length byte is ever zero (which subsumes the
spec's allowance of a zero only as a 256-run split remnant). -/
theorem C6_rle_emission_invariant (types : List Nat)
    (hlen : types.length = BLOCKS_PER_CHUNK) :
    runSum (writeChunkBody types) = BLOCKS_PER_CHUNK
    ∧ ∀ p ∈ writeChunkBody types, 1 ≤ p.2 ∧ p.2 ≤ 255 := by
  refine ⟨by rw [writeChunkBody_runSum, hlen], ?_⟩
  cases types with
  | nil => simp [BLOCKS_PER_CHUNK, BLOCKS_PER_Z_LAYER, CHUNK_DIMENSIONS_X,
      CHUNK_DIMENSIONS_Y, CHUNK_DIMENSIONS_Z, CHUNK_BITS_X, CHUNK_BITS_Y,
      CHUNK_BITS_Z] at hlen
  | cons t ts =>
    unfold writeChunkBody
    simp only [List.headD_cons, List.foldl_cons]
    rw [show rleStep ([], t, 0) t = ([], t, 1) by simp [rleStep]]
    have h := rle_fold_counts ts [] t 1 (by simp) (by omega) (by omega)
    intro p hp
    rcases List.mem_append.1 hp with hp | hp
    · exact h.1 p hp
    · simp at hp; subst hp; exact ⟨h.2.1, h.2.2⟩

/-- C6 witness: the invariant evaluated on a concrete full chunk. -/
theorem C6_rle_emission_invariant_witness :
    (List.replicate BLOCKS_PER_CHUNK 7).length = BLOCKS_PER_CHUNK
    ∧ (runSum (writeChunkBody (List.replicate BLOCKS_PER_CHUNK 7)) = BLOCKS_PER_CHUNK
       ∧ ∀ p ∈ writeChunkBody (List.replicate BLOCKS_PER_CHUNK 7), 1 ≤ p.2 ∧ p.2 ≤ 255) :=
  ⟨by simp, C6_rle_emission_invariant _ (by simp)⟩

/-- C3 evidence.  The verification loop reads the file buffer out of bounds
on malformed input, contradicting the claim that every byte sequence is
processed without an out-of-bounds read: a 3-byte file faults (the 12-byte
header memcpy reads past the end), and a valid header followed by a single
dangling body byte faults (the run-count loop reads data[byteIndex + 1] one
byte past the end).  A wrong-magic file of even body length, by contrast, is
rejected and does fall back to procedural generation. -/
theorem C3_load_path_oob_read :
    populateBlocksOnChunk [83, 77, 67] = none
    ∧ populateBlocksOnChunk [83, 77, 67, 68, 1, 4, 4, 8, 0, 0, 0, 82, 9] = none
    ∧ populateBlocksOnChunk [0, 1, 2, 3, 4, 5, 6, 7, 8, 9, 10, 11]
        = some PopulateOutcome.procedural := by
  refine ⟨rfl, rfl, rfl⟩

/-- Bridge between the bitmask arithmetic of the source and ordinary
division/remainder: masking with a block of b one-bits shifted up by a
extracts the middle digits. -/
theorem and_shifted_mask (n a b : Nat) :
    n &&& ((2 ^ b - 1) <<< a) = n / 2 ^ a % 2 ^ b * 2 ^ a := by
  apply Nat.eq_of_testBit_eq
  intro i
  rw [show n / 2 ^ a % 2 ^ b * 2 ^ a = (n / 2 ^ a % 2 ^ b) <<< a by
    rw [Nat.shiftLeft_eq]]
  rw [show n / 2 ^ a = n >>> a from (Nat.shiftRight_eq_div_pow n a).symm]
  simp only [Nat.testBit_and, Nat.testBit_shiftLeft, Nat.testBit_two_pow_sub_one,
    Nat.testBit_mod_two_pow, Nat.testBit_shiftRight]
  by_cases hai : a ≤ i
  · rw [show a + (i - a) = i by omega]
    cases hb : n.testBit i <;> simp [hai, hb] <;> omega
  · simp [show ¬ (i ≥ a) from hai]

theorem and_x_mask (n : Nat) : n &&& CHUNK_X_MASK = n % 16 := by
  have h := and_shifted_mask n 0 4
  norm_num at h
  rw [show CHUNK_X_MASK = 15 from rfl]
  omega

theorem and_y_mask (n : Nat) : n &&& CHUNK_Y_MASK = n / 16 % 16 * 16 := by
  have h := and_shifted_mask n 4 4
  norm_num [Nat.shiftLeft_eq] at h
  rw [show CHUNK_Y_MASK = 240 from rfl]
  exact h

theorem and_z_mask (n : Nat) : n &&& CHUNK_Z_MASK = n / 256 % 256 * 256 := by
  have h := and_shifted_mask n 8 8
  norm_num [Nat.shiftLeft_eq] at h
  rw [show CHUNK_Z_MASK = 65280 from rfl]
  exact h

/-- C7 counterexample: at stream position 16 (the 17th block consumed by a
WriteToFile body, which walks block indices linearly) the code layout gives
block coords (0, 1, 0) while the claimed X-fastest, then-Z, then-Y order
gives (0, 0, 1).  The claim is false at block index 16. -/
theorem C7_counterexample :
    GetBlockCoordsFromBlockIndex CHUNK_DIMENSIONS_X = (0, 1, 0)
    ∧ specScanOrderCoords CHUNK_DIMENSIONS_X = (0, 0, 1)
    ∧ GetBlockCoordsFromBlockIndex CHUNK_DIMENSIONS_X
        ≠ specScanOrderCoords CHUNK_DIMENSIONS_X := by
  decide

/-- C7 amended.  The RLE stream of WriteToFile covers the chunk's blocks in
a fixed linear scan order in which X varies fastest, then Y, then Z: the
n-th block consumed is the one whose coords are the n-th position of the
X-fastest, then-Y, then-Z enumeration. -/
theorem C7_amended_scan_order (n : Nat) (hn : n < BLOCKS_PER_CHUNK) :
    GetBlockCoordsFromBlockIndex n = xyzScanOrderCoords n := by
  have hn' : n < 65536 := hn
  unfold GetBlockCoordsFromBlockIndex xyzScanOrderCoords
  rw [and_x_mask, and_y_mask, and_z_mask]
  simp only [CHUNK_DIMENSIONS_X, CHUNK_DIMENSIONS_Y, CHUNK_BITS_X, CHUNK_BITS_Y,
    BLOCKS_PER_Z_LAYER, Nat.shiftRight_eq_div_pow, Prod.mk.injEq]
  norm_num
  omega

/-- C7 amended witness: the corrected scan order at a concrete index. -/
theorem C7_amended_scan_order_witness :
    4097 < BLOCKS_PER_CHUNK
    ∧ GetBlockCoordsFromBlockIndex 4097 = xyzScanOrderCoords 4097 :=
  ⟨by decide, C7_amended_scan_order 4097 (by decide)⟩

/-! ### Claim C4: locator navigation symmetry -/

/-- C4 counterexample.  The claim that every directional step applied to the
missing locator returns the missing locator is false: ToEast and ToNorth on
the missing locator take the chunk-boundary branch (the index -1 has all
mask bits set) and dereference the null chunk pointer (modelled as none,
not a locator at all).  Likewise the east-west round trip fails for a
locator on the east face of a chunk with no east neighbor: the west step of
the resulting null-chunk locator dereferences the null chunk. -/
theorem C4_counterexample :
    ToEast emptyWorld missingLocator = none
    ∧ ToNorth emptyWorld missingLocator = none
    ∧ (ToEast singleChunkWorld ⟨some (0, 0), 15⟩).bind (ToWest singleChunkWorld) = none := by
  refine ⟨by decide, by decide, by decide⟩

/-! Case-split forms of the six directional steps. -/

theorem ToEast_boundary (w : WorldState) (c : ChunkCoord) (idx : Nat)
    (h : idx &&& CHUNK_X_MASK = CHUNK_X_MASK) :
    ToEast w ⟨some c, idx⟩ = some ⟨GetEastNeighbor w c, idx &&& uint32Not CHUNK_X_MASK⟩ := by
  simp [ToEast, h]

theorem ToEast_interior (w : WorldState) (oc : Option ChunkCoord) (idx : Nat)
    (h : idx &&& CHUNK_X_MASK ≠ CHUNK_X_MASK) :
    ToEast w ⟨oc, idx⟩ = some ⟨oc, idx + 1⟩ := by
  simp [ToEast, h]

theorem ToWest_boundary (w : WorldState) (c : ChunkCoord) (idx : Nat)
    (h : idx &&& CHUNK_X_MASK = 0) :
    ToWest w ⟨some c, idx⟩ = some ⟨GetWestNeighbor w c, idx ||| CHUNK_X_MASK⟩ := by
  simp [ToWest, h]

theorem ToWest_interior (w : WorldState) (oc : Option ChunkCoord) (idx : Nat)
    (h : idx &&& CHUNK_X_MASK ≠ 0) :
    ToWest w ⟨oc, idx⟩ = some ⟨oc, idx - 1⟩ := by
  simp [ToWest, h]

theorem ToNorth_boundary (w : WorldState) (c : ChunkCoord) (idx : Nat)
    (h : idx &&& CHUNK_Y_MASK = CHUNK_Y_MASK) :
    ToNorth w ⟨some c, idx⟩ = some ⟨GetNorthNeighbor w c, idx &&& uint32Not CHUNK_Y_MASK⟩ := by
  simp [ToNorth, h]

theorem ToNorth_interior (w : WorldState) (oc : Option ChunkCoord) (idx : Nat)
    (h : idx &&& CHUNK_Y_MASK ≠ CHUNK_Y_MASK) :
    ToNorth w ⟨oc, idx⟩ = some ⟨oc, idx + CHUNK_DIMENSIONS_X⟩ := by
  simp [ToNorth, h]

theorem ToSouth_boundary (w : WorldState) (c : ChunkCoord) (idx : Nat)
    (h : idx &&& CHUNK_Y_MASK = 0) :
    ToSouth w ⟨some c, idx⟩ = some ⟨GetSouthNeighbor w c, idx ||| CHUNK_Y_MASK⟩ := by
  simp [ToSouth, h]

theorem ToSouth_interior (w : WorldState) (oc : Option ChunkCoord) (idx : Nat)
    (h : idx &&& CHUNK_Y_MASK ≠ 0) :
    ToSouth w ⟨oc, idx⟩ = some ⟨oc, idx - CHUNK_DIMENSIONS_X⟩ := by
  simp [ToSouth, h]

theorem ToAbove_top (oc : Option ChunkCoord) (idx : Nat)
    (h : idx &&& CHUNK_Z_MASK = CHUNK_Z_MASK) :
    ToAbove ⟨oc, idx⟩ = missingLocator := by
  simp [ToAbove, h]

theorem ToAbove_interior (oc : Option ChunkCoord) (idx : Nat)
    (h : idx &&& CHUNK_Z_MASK ≠ CHUNK_Z_MASK) :
    ToAbove ⟨oc, idx⟩ = ⟨oc, idx + BLOCKS_PER_Z_LAYER⟩ := by
  simp [ToAbove, h]

theorem ToBelow_bottom (oc : Option ChunkCoord) (idx : Nat)
    (h : idx &&& CHUNK_Z_MASK = 0) :
    ToBelow ⟨oc, idx⟩ = missingLocator := by
  simp [ToBelow, h]

theorem ToBelow_interior (oc : Option ChunkCoord) (idx : Nat)
    (h : idx &&& CHUNK_Z_MASK ≠ 0) :
    ToBelow ⟨oc, idx⟩ = ⟨oc, idx - BLOCKS_PER_Z_LAYER⟩ := by
  simp [ToBelow, h]

theorem ToEast_null (w : WorldState) : ToEast w missingLocator = none := by
  have h : UINT32_MAX &&& CHUNK_X_MASK = CHUNK_X_MASK := by decide
  simp [ToEast, missingLocator, h]

theorem ToNorth_null (w : WorldState) : ToNorth w missingLocator = none := by
  have h : UINT32_MAX &&& CHUNK_Y_MASK = CHUNK_Y_MASK := by decide
  simp [ToNorth, missingLocator, h]

theorem ToWest_null (w : WorldState) :
    ToWest w missingLocator = some ⟨none, UINT32_MAX - 1⟩ := by
  have h : UINT32_MAX &&& CHUNK_X_MASK ≠ 0 := by decide
  simp [ToWest, missingLocator, h]

theorem ToSouth_null (w : WorldState) :
    ToSouth w missingLocator = some ⟨none, UINT32_MAX - CHUNK_DIMENSIONS_X⟩ := by
  have h : UINT32_MAX &&& CHUNK_Y_MASK ≠ 0 := by decide
  simp [ToSouth, missingLocator, h]

theorem and_not_x_mask (n : Nat) (hn : n < BLOCKS_PER_CHUNK) :
    n &&& uint32Not CHUNK_X_MASK = n / 16 * 16 := by
  have h := and_shifted_mask n 4 28
  norm_num [Nat.shiftLeft_eq] at h
  rw [show uint32Not CHUNK_X_MASK = 4294967280 from by decide, h]
  have hn' : n < 65536 := hn
  have : n / 16 < 268435456 := by omega
  rw [Nat.mod_eq_of_lt this]

theorem mul16_or_15 (k : Nat) : k * 16 ||| 15 = k * 16 + 15 := by
  have h := @Nat.mul_add_lt_is_or 4 15 (by norm_num) k
  norm_num [Nat.mul_comm] at h
  omega

/-- C4 amended.  For a locator with a non-null active chunk and an in-range
block index: the east-west round trip returns the locator itself when the
locator is off the east face, or when the east neighbor chunk is active
(neighbor links are symmetric); the above-below round trip returns the
locator itself off the top Z layer, and ToAbove at the top layer yields the
missing locator.  For the missing locator, ToWest/ToSouth/ToAbove/ToBelow
produce null-chunk locators, but ToEast and ToNorth dereference the null
chunk. -/
theorem C4_amended (w : WorldState) (c : ChunkCoord) (idx : Nat)
    (hidx : idx < BLOCKS_PER_CHUNK) :
    (idx &&& CHUNK_X_MASK ≠ CHUNK_X_MASK →
      (ToEast w ⟨some c, idx⟩).bind (ToWest w) = some ⟨some c, idx⟩)
    ∧ (idx &&& CHUNK_X_MASK = CHUNK_X_MASK → c ∈ w.active → (c.1 + 1, c.2) ∈ w.active →
      (ToEast w ⟨some c, idx⟩).bind (ToWest w) = some ⟨some c, idx⟩)
    ∧ (idx &&& CHUNK_Z_MASK ≠ CHUNK_Z_MASK →
      ToBelow (ToAbove ⟨some c, idx⟩) = ⟨some c, idx⟩)
    ∧ (idx &&& CHUNK_Z_MASK = CHUNK_Z_MASK → ToAbove ⟨some c, idx⟩ = missingLocator)
    ∧ (∃ L, ToWest w missingLocator = some L ∧ L.chunk = none)
    ∧ (∃ L, ToSouth w missingLocator = some L ∧ L.chunk = none)
    ∧ ToAbove missingLocator = missingLocator
    ∧ (ToBelow missingLocator).chunk = none
    ∧ ToEast w missingLocator = none
    ∧ ToNorth w missingLocator = none := by
  have hidx' : idx < 65536 := hidx
  refine ⟨?_, ?_, ?_, ?_, ?_, ?_, by decide, by decide, ToEast_null w, ToNorth_null w⟩
  · intro h
    rw [ToEast_interior w _ _ h, Option.some_bind]
    rw [and_x_mask, show (CHUNK_X_MASK : Nat) = 15 from rfl] at h
    rw [ToWest_interior w _ _ (by
      rw [and_x_mask]; omega)]
    simp
  · intro h hc hce
    rw [ToEast_boundary w _ _ h, Option.some_bind, and_not_x_mask idx hidx]
    rw [show GetEastNeighbor w c = some (c.1 + 1, c.2) from by
      unfold GetEastNeighbor; rw [if_pos hce]]
    rw [and_x_mask, show (CHUNK_X_MASK : Nat) = 15 from rfl] at h
    rw [ToWest_boundary w _ _ (by rw [and_x_mask]; omega)]
    rw [show GetWestNeighbor w (c.1 + 1, c.2) = some c from by
      unfold GetWestNeighbor
      rw [show ((c.1 + 1 : Int) - 1, c.2) = c from by
        rw [Prod.ext_iff]; constructor <;> simp]
      rw [if_pos hc]]
    rw [show (CHUNK_X_MASK : Nat) = 15 from rfl, mul16_or_15]
    rw [Option.some_inj, BlockLoc.mk.injEq]
    exact ⟨rfl, by omega⟩
  · intro h
    rw [ToAbove_interior _ _ h]
    rw [and_z_mask, show (CHUNK_Z_MASK : Nat) = 65280 from rfl] at h
    rw [ToBelow_interior _ _ (by
      rw [show BLOCKS_PER_Z_LAYER = 256 from rfl, and_z_mask]; omega)]
    rw [BlockLoc.mk.injEq]
    exact ⟨rfl, by rw [show BLOCKS_PER_Z_LAYER = 256 from rfl]; omega⟩
  · intro h
    exact ToAbove_top _ _ h
  · exact ⟨⟨none, UINT32_MAX - 1⟩, ToWest_null w, rfl⟩
  · exact ⟨⟨none, UINT32_MAX - CHUNK_DIMENSIONS_X⟩, ToSouth_null w, rfl⟩

/-- C4 amended witness: the round trips evaluated on a two-chunk world at a
concrete east-face index. -/
theorem C4_amended_witness :
    15 < BLOCKS_PER_CHUNK
    ∧ ((15 : Nat) &&& CHUNK_X_MASK = CHUNK_X_MASK → ((0 : Int), (0 : Int)) ∈ twoChunkWorld.active →
        ((0 : Int) + 1, (0 : Int)) ∈ twoChunkWorld.active →
        (ToEast twoChunkWorld ⟨some (0, 0), 15⟩).bind (ToWest twoChunkWorld)
          = some ⟨some (0, 0), 15⟩) :=
  ⟨by decide, (C4_amended twoChunkWorld (0, 0) 15 (by decide)).2.1⟩

/-! ### Basic facts about the lighting state updates -/

theorem updateBlock_active (w : WorldState) (c : ChunkCoord) (idx : Nat) (f : Block → Block) :
    (updateBlock w c idx f).active = w.active := rfl

theorem updateBlock_reg (w : WorldState) (c : ChunkCoord) (idx : Nat) (f : Block → Block) :
    (updateBlock w c idx f).reg = w.reg := rfl

theorem updateBlock_queue (w : WorldState) (c : ChunkCoord) (idx : Nat) (f : Block → Block) :
    (updateBlock w c idx f).dirtyQueue = w.dirtyQueue := rfl

theorem updateBlock_blocks (w : WorldState) (c : ChunkCoord) (idx : Nat) (f : Block → Block)
    (c2 : ChunkCoord) (i2 : Nat) :
    (updateBlock w c idx f).blocks c2 i2
      = if c2 = c ∧ i2 = idx then f (w.blocks c2 i2) else w.blocks c2 i2 := rfl

theorem GetBlock_none (w : WorldState) (L : BlockLoc) (h : L.chunk = none) :
    GetBlock w L = MISSING_BLOCK := by
  unfold GetBlock
  rw [h]

theorem GetBlock_some (w : WorldState) (c : ChunkCoord) (L : BlockLoc)
    (h : L.chunk = some c) :
    GetBlock w L = if c ∈ w.active then w.blocks c L.blockIndex else MISSING_BLOCK := by
  unfold GetBlock
  rw [h]

theorem GetBlock_updateBlock (w : WorldState) (c : ChunkCoord) (idx : Nat)
    (f : Block → Block) (L : BlockLoc) :
    GetBlock (updateBlock w c idx f) L
      = if L.chunk = some c ∧ L.blockIndex = idx ∧ c ∈ w.active then f (GetBlock w L)
        else GetBlock w L := by
  cases hL : L.chunk with
  | none =>
    rw [GetBlock_none _ _ hL, GetBlock_none _ _ hL, if_neg (by simp [hL])]
  | some c2 =>
    rw [GetBlock_some _ c2 _ hL, GetBlock_some _ c2 _ hL,
      show (updateBlock w c idx f).active = w.active from rfl, updateBlock_blocks]
    by_cases hact : c2 ∈ w.active
    · rw [if_pos hact, if_pos hact]
      by_cases hc : c2 = c
      · subst hc
        by_cases hi : L.blockIndex = idx
        · rw [if_pos ⟨rfl, hi⟩, if_pos ⟨rfl, hi, hact⟩]
        · rw [if_neg (by simp [hi]), if_neg (by simp [hi])]
      · rw [if_neg (by simp [hc]), if_neg (by simp [hc])]
    · rw [if_neg hact, if_neg hact,
        if_neg (by rintro ⟨h1, _, h3⟩; injection h1 with h1; subst h1; exact hact h3)]

theorem setBlockLight_active (w : WorldState) (c : ChunkCoord) (idx ind outd : Nat) :
    (setBlockLight w c idx ind outd).active = w.active := rfl

theorem setBlockLight_reg (w : WorldState) (c : ChunkCoord) (idx ind outd : Nat) :
    (setBlockLight w c idx ind outd).reg = w.reg := rfl

theorem setBlockLight_queue (w : WorldState) (c : ChunkCoord) (idx ind outd : Nat) :
    (setBlockLight w c idx ind outd).dirtyQueue = w.dirtyQueue := rfl

theorem addDirty_active (w : WorldState) (L : BlockLoc) :
    (AddBlockToDirtyLightingList w L).active = w.active := by
  unfold AddBlockToDirtyLightingList
  split
  · rfl
  · cases L.chunk <;> rfl

theorem addDirty_reg (w : WorldState) (L : BlockLoc) :
    (AddBlockToDirtyLightingList w L).reg = w.reg := by
  unfold AddBlockToDirtyLightingList
  split
  · rfl
  · cases L.chunk <;> rfl

/-- validLoc only looks at the active set. -/
theorem validLoc_congr (w w' : WorldState) (h : w'.active = w.active) (L : BlockLoc) :
    validLoc w' L ↔ validLoc w L := by
  unfold validLoc
  rw [h]

/-! ### The directional steps depend only on the active set -/

theorem ToEast_active_congr (w w' : WorldState) (h : w'.active = w.active) (L : BlockLoc) :
    ToEast w' L = ToEast w L := by
  unfold ToEast GetEastNeighbor
  rw [h]

theorem ToWest_active_congr (w w' : WorldState) (h : w'.active = w.active) (L : BlockLoc) :
    ToWest w' L = ToWest w L := by
  unfold ToWest GetWestNeighbor
  rw [h]

theorem ToNorth_active_congr (w w' : WorldState) (h : w'.active = w.active) (L : BlockLoc) :
    ToNorth w' L = ToNorth w L := by
  unfold ToNorth GetNorthNeighbor
  rw [h]

theorem ToSouth_active_congr (w w' : WorldState) (h : w'.active = w.active) (L : BlockLoc) :
    ToSouth w' L = ToSouth w L := by
  unfold ToSouth GetSouthNeighbor
  rw [h]

theorem GetBlock_sameLighting (w w' : WorldState) (h : SameLighting w w') (L : BlockLoc) :
    (GetBlock w' L).typeIndex = (GetBlock w L).typeIndex
    ∧ (GetBlock w' L).indoor = (GetBlock w L).indoor
    ∧ (GetBlock w' L).outdoor = (GetBlock w L).outdoor
    ∧ (GetBlock w' L).isPartOfSky = (GetBlock w L).isPartOfSky := by
  obtain ⟨hreg, hact, hb⟩ := h
  cases hL : L.chunk with
  | none =>
    rw [GetBlock_none _ _ hL, GetBlock_none _ _ hL]
    exact ⟨rfl, rfl, rfl, rfl⟩
  | some c =>
    rw [GetBlock_some _ c _ hL, GetBlock_some _ c _ hL, hact]
    by_cases hc : c ∈ w.active
    · rw [if_pos hc, if_pos hc]
      exact hb c L.blockIndex
    · rw [if_neg hc, if_neg hc]
      exact ⟨rfl, rfl, rfl, rfl⟩

theorem stepBlock_sameLighting (w w' : WorldState) (h : SameLighting w w')
    (o : Option BlockLoc) :
    (stepBlock w' o).typeIndex = (stepBlock w o).typeIndex
    ∧ (stepBlock w' o).indoor = (stepBlock w o).indoor
    ∧ (stepBlock w' o).outdoor = (stepBlock w o).outdoor
    ∧ (stepBlock w' o).isPartOfSky = (stepBlock w o).isPartOfSky := by
  cases o with
  | none => exact ⟨rfl, rfl, rfl, rfl⟩
  | some L => exact GetBlock_sameLighting w w' h L

theorem lightingCorrect_sameLighting (w w' : WorldState) (h : SameLighting w w')
    (L : BlockLoc) :
    lightingCorrect w' L ↔ lightingCorrect w L := by
  have hact : w'.active = w.active := h.2.1
  have hreg : w'.reg = w.reg := h.1
  have hE := ToEast_active_congr w w' hact L
  have hW := ToWest_active_congr w w' hact L
  have hN := ToNorth_active_congr w w' hact L
  have hS := ToSouth_active_congr w w' hact L
  have hb0 := GetBlock_sameLighting w w' h L
  have hbe := stepBlock_sameLighting w w' h (ToEast w L)
  have hbw := stepBlock_sameLighting w w' h (ToWest w L)
  have hbn := stepBlock_sameLighting w w' h (ToNorth w L)
  have hbs := stepBlock_sameLighting w w' h (ToSouth w L)
  have hba := GetBlock_sameLighting w w' h (ToAbove L)
  have hbb := GetBlock_sameLighting w w' h (ToBelow L)
  unfold lightingCorrect expectedIndoorLight expectedOutdoorLight maxIndoor maxOutdoor
    neighborBlocks
  rw [hE, hW, hN, hS, hreg]
  simp only [List.foldr_cons, List.foldr_nil]
  rw [hb0.1, hb0.2.1, hb0.2.2.1, hb0.2.2.2,
    hbe.2.1, hbw.2.1, hbn.2.1, hbs.2.1, hba.2.1, hbb.2.1,
    hbe.2.2.1, hbw.2.2.1, hbn.2.2.1, hbs.2.2.1, hba.2.2.1, hbb.2.2.1]

/-! ### SameLighting instances and dirty-queue bookkeeping -/

theorem sameLighting_refl (w : WorldState) : SameLighting w w :=
  ⟨rfl, rfl, fun _ _ => ⟨rfl, rfl, rfl, rfl⟩⟩

theorem sameLighting_trans {w1 w2 w3 : WorldState}
    (h12 : SameLighting w1 w2) (h23 : SameLighting w2 w3) : SameLighting w1 w3 := by
  obtain ⟨r12, a12, b12⟩ := h12
  obtain ⟨r23, a23, b23⟩ := h23
  refine ⟨r23.trans r12, a23.trans a12, fun c i => ?_⟩
  obtain ⟨t2, i2, o2, s2⟩ := b12 c i
  obtain ⟨t3, i3, o3, s3⟩ := b23 c i
  exact ⟨t3.trans t2, i3.trans i2, o3.trans o2, s3.trans s2⟩

theorem sameLighting_updateFlag (w : WorldState) (c : ChunkCoord) (idx : Nat) (b : Bool) :
    SameLighting w (updateBlock w c idx (fun bl => { bl with isInDirtyLightingList := b })) := by
  refine ⟨rfl, rfl, fun c2 i2 => ?_⟩
  rw [updateBlock_blocks]
  split
  · exact ⟨rfl, rfl, rfl, rfl⟩
  · exact ⟨rfl, rfl, rfl, rfl⟩

theorem sameLighting_addDirty (w : WorldState) (X : BlockLoc) :
    SameLighting w (AddBlockToDirtyLightingList w X) := by
  unfold AddBlockToDirtyLightingList
  split
  · exact sameLighting_refl w
  · cases X.chunk with
    | none => exact sameLighting_refl w
    | some c => exact sameLighting_updateFlag w c X.blockIndex true

theorem addDirty_queue_mono (w : WorldState) (X Y : BlockLoc)
    (h : Y ∈ w.dirtyQueue) :
    Y ∈ (AddBlockToDirtyLightingList w X).dirtyQueue := by
  unfold AddBlockToDirtyLightingList
  split
  · exact h
  · cases X.chunk with
    | none => exact h
    | some c => exact List.mem_append_left _ h

/-- Effect of AddBlockToDirtyLightingList on the validity/nodup/flag-queue
invariants, plus the guarantee that a valid target ends up in the queue. -/
theorem addDirty_inv (w : WorldState) (X : BlockLoc)
    (hX : X.chunk = none ∨ validLoc w X)
    (hqv : ∀ L ∈ w.dirtyQueue, validLoc w L)
    (hnd : w.dirtyQueue.Nodup)
    (hfq : ∀ L, validLoc w L →
      ((GetBlock w L).isInDirtyLightingList = true ↔ L ∈ w.dirtyQueue)) :
    (∀ L ∈ (AddBlockToDirtyLightingList w X).dirtyQueue,
        validLoc (AddBlockToDirtyLightingList w X) L)
    ∧ (AddBlockToDirtyLightingList w X).dirtyQueue.Nodup
    ∧ (∀ L, validLoc (AddBlockToDirtyLightingList w X) L →
        ((GetBlock (AddBlockToDirtyLightingList w X) L).isInDirtyLightingList = true
          ↔ L ∈ (AddBlockToDirtyLightingList w X).dirtyQueue))
    ∧ (validLoc w X → X ∈ (AddBlockToDirtyLightingList w X).dirtyQueue) := by
  by_cases hflag : (GetBlock w X).isInDirtyLightingList = true
  · rw [show AddBlockToDirtyLightingList w X = w from by
      unfold AddBlockToDirtyLightingList; rw [if_pos hflag]]
    exact ⟨hqv, hnd, hfq, fun hv => (hfq X hv).1 hflag⟩
  · cases hXc : X.chunk with
    | none =>
      rw [show AddBlockToDirtyLightingList w X = w from by
        unfold AddBlockToDirtyLightingList
        rw [if_neg hflag, hXc]]
      refine ⟨hqv, hnd, hfq, fun hv => ?_⟩
      obtain ⟨c, hc, _⟩ := hv
      rw [hXc] at hc
      cases hc
    | some c =>
      have hvX : validLoc w X := by
        rcases hX with h | h
        · rw [hXc] at h; cases h
        · exact h
      obtain ⟨c', hc', hact, hlt⟩ := hvX
      rw [hXc] at hc'
      injection hc' with hc'
      subst hc'
      have hw2 : AddBlockToDirtyLightingList w X
          = { updateBlock w c X.blockIndex (fun b => { b with isInDirtyLightingList := true }) with
              dirtyQueue := w.dirtyQueue ++ [X] } := by
        unfold AddBlockToDirtyLightingList
        rw [if_neg hflag, hXc]
      rw [hw2]
      have hGB : ∀ L : BlockLoc,
          GetBlock { updateBlock w c X.blockIndex (fun b => { b with isInDirtyLightingList := true }) with
              dirtyQueue := w.dirtyQueue ++ [X] } L
            = GetBlock (updateBlock w c X.blockIndex (fun b => { b with isInDirtyLightingList := true })) L :=
        fun L => rfl
      have hXq : X ∉ w.dirtyQueue := by
        intro hmem
        exact hflag ((hfq X ⟨c, hXc, hact, hlt⟩).2 hmem)
      refine ⟨?_, ?_, ?_, fun _ => List.mem_append_right _ (List.mem_singleton.2 rfl)⟩
      · intro L hL
        show validLoc w L
        rcases List.mem_append.1 hL with hL | hL
        · exact hqv L hL
        · rw [List.mem_singleton.1 hL]
          exact ⟨c, hXc, hact, hlt⟩
      · rw [List.nodup_append]
        exact ⟨hnd, List.nodup_singleton X,
          fun a ha ha2 => hXq (by rwa [← List.mem_singleton.1 ha2])⟩
      · intro L hvL
        have hvL' : validLoc w L := hvL
        obtain ⟨cL, hcL, hactL, hltL⟩ := hvL'
        rw [hGB, GetBlock_updateBlock]
        by_cases hLX : L = X
        · subst hLX
          rw [if_pos ⟨hXc, rfl, hact⟩]
          simp
        · rw [if_neg (by
            rintro ⟨h1, h2, _⟩
            exact hLX (by
              cases L
              cases X
              simp_all)), List.mem_append]
          rw [hfq L ⟨cL, hcL, hactL, hltL⟩]
          simp only [List.mem_singleton]
          constructor
          · exact fun h => Or.inl h
          · rintro (h | h)
            · exact h
            · exact absurd h hLX

theorem addAllDirty_sameLighting (ls : List BlockLoc) : ∀ (w : WorldState),
    SameLighting w (addAllDirty w ls) := by
  induction ls with
  | nil => exact fun w => sameLighting_refl w
  | cons X ls ih =>
    intro w
    exact sameLighting_trans (sameLighting_addDirty w X) (ih _)

theorem addAllDirty_queue_mono (ls : List BlockLoc) : ∀ (w : WorldState) (Y : BlockLoc),
    Y ∈ w.dirtyQueue → Y ∈ (addAllDirty w ls).dirtyQueue := by
  induction ls with
  | nil => exact fun _ _ h => h
  | cons X ls ih =>
    intro w Y h
    exact ih _ Y (addDirty_queue_mono w X Y h)

theorem addAllDirty_inv (ls : List BlockLoc) : ∀ (w : WorldState),
    (∀ X ∈ ls, X.chunk = none ∨ validLoc w X) →
    (∀ L ∈ w.dirtyQueue, validLoc w L) →
    w.dirtyQueue.Nodup →
    (∀ L, validLoc w L →
      ((GetBlock w L).isInDirtyLightingList = true ↔ L ∈ w.dirtyQueue)) →
    (∀ L ∈ (addAllDirty w ls).dirtyQueue, validLoc (addAllDirty w ls) L)
    ∧ (addAllDirty w ls).dirtyQueue.Nodup
    ∧ (∀ L, validLoc (addAllDirty w ls) L →
        ((GetBlock (addAllDirty w ls) L).isInDirtyLightingList = true
          ↔ L ∈ (addAllDirty w ls).dirtyQueue))
    ∧ (∀ X ∈ ls, validLoc w X → X ∈ (addAllDirty w ls).dirtyQueue) := by
  induction ls with
  | nil =>
    intro w _ hqv hnd hfq
    exact ⟨hqv, hnd, hfq, fun X hX => absurd hX (List.not_mem_nil X)⟩
  | cons X ls ih =>
    intro w hX hqv hnd hfq
    have hstep := addDirty_inv w X (hX X (List.mem_cons_self X ls)) hqv hnd hfq
    have hact : (AddBlockToDirtyLightingList w X).active = w.active := addDirty_active w X
    have hX' : ∀ Y ∈ ls, Y.chunk = none ∨ validLoc (AddBlockToDirtyLightingList w X) Y := by
      intro Y hY
      rcases hX Y (List.mem_cons_of_mem X hY) with h | h
      · exact Or.inl h
      · exact Or.inr ((validLoc_congr w _ hact Y).2 h)
    have hrest := ih _ hX' hstep.1 hstep.2.1 hstep.2.2.1
    refine ⟨hrest.1, hrest.2.1, hrest.2.2.1, ?_⟩
    intro Y hY hvY
    rcases List.mem_cons.1 hY with rfl | hY
    · exact addAllDirty_queue_mono ls _ Y (hstep.2.2.2 hvY)
    · exact hrest.2.2.2 Y hY ((validLoc_congr w _ hact Y).2 hvY)

/-! ### Mask arithmetic for the index layout -/

theorem and_not_y_mask (n : Nat) :
    n &&& uint32Not CHUNK_Y_MASK = n % 16 + n / 256 % 16777216 * 256 := by
  have hsplit : uint32Not CHUNK_Y_MASK = 15 ||| 4294967040 := by decide
  rw [hsplit, Nat.and_or_distrib_left]
  have h1 : n &&& 15 = n % 16 := by
    have h := and_x_mask n
    rwa [show (CHUNK_X_MASK : Nat) = 15 from rfl] at h
  have h2 : n &&& 4294967040 = n / 256 % 16777216 * 256 := by
    have h := and_shifted_mask n 8 24
    norm_num [Nat.shiftLeft_eq] at h
    exact h
  rw [h1, h2]
  have h3 := @Nat.mul_add_lt_is_or 8 (n % 16)
    (by show n % 16 < 256; omega) (n / 256 % 16777216)
  rw [Nat.or_comm]
  rw [show (2 : Nat) ^ 8 = 256 from rfl] at h3
  rw [Nat.mul_comm 256 (n / 256 % 16777216)] at h3
  omega

theorem or_y_mask (n : Nat) (h : n &&& CHUNK_Y_MASK = 0) :
    n ||| CHUNK_Y_MASK = n + 240 := by
  have hy : n / 16 % 16 = 0 := by
    rw [and_y_mask] at h
    omega
  have hlo : n % 256 < 16 := by omega
  have hn : 256 * (n / 256) + n % 256 = n := by omega
  have h1 : 256 * (n / 256) + n % 256 = 256 * (n / 256) ||| n % 256 := by
    have h := @Nat.mul_add_lt_is_or 8 (n % 256)
      (by show n % 256 < 256; omega) (n / 256)
    norm_num at h
    exact h
  have h2 : (240 : Nat) + n % 256 = 240 ||| n % 256 := by
    have h := @Nat.mul_add_lt_is_or 4 (n % 256)
      (by show n % 256 < 16; omega) 15
    norm_num at h
    omega
  have h3 : 256 * (n / 256) + (240 + n % 256) = 256 * (n / 256) ||| (240 + n % 256) := by
    have h := @Nat.mul_add_lt_is_or 8 (240 + n % 256)
      (by show 240 + n % 256 < 256; omega) (n / 256)
    norm_num at h
    exact h
  calc n ||| CHUNK_Y_MASK
      = (256 * (n / 256) ||| n % 256) ||| 240 := by
        rw [← h1, hn]; rfl
    _ = 256 * (n / 256) ||| (240 ||| n % 256) := by
        rw [Nat.or_assoc, Nat.or_comm (n % 256) 240]
    _ = 256 * (n / 256) ||| (240 + n % 256) := by rw [h2]
    _ = 256 * (n / 256) + (240 + n % 256) := by rw [← h3]
    _ = n + 240 := by omega

/-! ### Existence, range and self-exclusion of the directional steps -/

theorem ToEast_some (w : WorldState) (c : ChunkCoord) (idx : Nat) :
    ∃ Y, ToEast w ⟨some c, idx⟩ = some Y := by
  by_cases h : idx &&& CHUNK_X_MASK = CHUNK_X_MASK
  · exact ⟨_, ToEast_boundary w c idx h⟩
  · exact ⟨_, ToEast_interior w (some c) idx h⟩

theorem ToWest_some (w : WorldState) (c : ChunkCoord) (idx : Nat) :
    ∃ Y, ToWest w ⟨some c, idx⟩ = some Y := by
  by_cases h : idx &&& CHUNK_X_MASK = 0
  · exact ⟨_, ToWest_boundary w c idx h⟩
  · exact ⟨_, ToWest_interior w (some c) idx h⟩

theorem ToNorth_some (w : WorldState) (c : ChunkCoord) (idx : Nat) :
    ∃ Y, ToNorth w ⟨some c, idx⟩ = some Y := by
  by_cases h : idx &&& CHUNK_Y_MASK = CHUNK_Y_MASK
  · exact ⟨_, ToNorth_boundary w c idx h⟩
  · exact ⟨_, ToNorth_interior w (some c) idx h⟩

theorem ToSouth_some (w : WorldState) (c : ChunkCoord) (idx : Nat) :
    ∃ Y, ToSouth w ⟨some c, idx⟩ = some Y := by
  by_cases h : idx &&& CHUNK_Y_MASK = 0
  · exact ⟨_, ToSouth_boundary w c idx h⟩
  · exact ⟨_, ToSouth_interior w (some c) idx h⟩

theorem ToEast_target (w : WorldState) (c : ChunkCoord) (idx : Nat) (Y : BlockLoc)
    (hact : c ∈ w.active) (hlt : idx < BLOCKS_PER_CHUNK)
    (hEq : ToEast w ⟨some c, idx⟩ = some Y) :
    Y.chunk = none ∨ validLoc w Y := by
  have hlt' : idx < 65536 := hlt
  by_cases h : idx &&& CHUNK_X_MASK = CHUNK_X_MASK
  · rw [ToEast_boundary w c idx h] at hEq
    injection hEq with hEq
    subst hEq
    unfold GetEastNeighbor
    by_cases hmem : (c.1 + 1, c.2) ∈ w.active
    · refine Or.inr ⟨(c.1 + 1, c.2), by rw [if_pos hmem], hmem, ?_⟩
      show idx &&& uint32Not CHUNK_X_MASK < BLOCKS_PER_CHUNK
      rw [and_not_x_mask idx hlt]
      show idx / 16 * 16 < 65536
      omega
    · exact Or.inl (by rw [if_neg hmem])
  · rw [ToEast_interior w (some c) idx h] at hEq
    injection hEq with hEq
    subst hEq
    rw [and_x_mask, show (CHUNK_X_MASK : Nat) = 15 from rfl] at h
    exact Or.inr ⟨c, rfl, hact, by show idx + 1 < 65536; omega⟩

theorem ToWest_target (w : WorldState) (c : ChunkCoord) (idx : Nat) (Y : BlockLoc)
    (hact : c ∈ w.active) (hlt : idx < BLOCKS_PER_CHUNK)
    (hEq : ToWest w ⟨some c, idx⟩ = some Y) :
    Y.chunk = none ∨ validLoc w Y := by
  have hlt' : idx < 65536 := hlt
  by_cases h : idx &&& CHUNK_X_MASK = 0
  · rw [ToWest_boundary w c idx h] at hEq
    injection hEq with hEq
    subst hEq
    unfold GetWestNeighbor
    by_cases hmem : (c.1 - 1, c.2) ∈ w.active
    · refine Or.inr ⟨(c.1 - 1, c.2), by rw [if_pos hmem], hmem, ?_⟩
      show idx ||| CHUNK_X_MASK < BLOCKS_PER_CHUNK
      rw [and_x_mask] at h
      rw [show (CHUNK_X_MASK : Nat) = 15 from rfl,
        show idx = idx / 16 * 16 from by omega, mul16_or_15]
      show idx / 16 * 16 + 15 < 65536
      omega
    · exact Or.inl (by rw [if_neg hmem])
  · rw [ToWest_interior w (some c) idx h] at hEq
    injection hEq with hEq
    subst hEq
    exact Or.inr ⟨c, rfl, hact, by show idx - 1 < 65536; omega⟩

theorem ToNorth_target (w : WorldState) (c : ChunkCoord) (idx : Nat) (Y : BlockLoc)
    (hact : c ∈ w.active) (hlt : idx < BLOCKS_PER_CHUNK)
    (hEq : ToNorth w ⟨some c, idx⟩ = some Y) :
    Y.chunk = none ∨ validLoc w Y := by
  have hlt' : idx < 65536 := hlt
  by_cases h : idx &&& CHUNK_Y_MASK = CHUNK_Y_MASK
  · rw [ToNorth_boundary w c idx h] at hEq
    injection hEq with hEq
    subst hEq
    unfold GetNorthNeighbor
    by_cases hmem : (c.1, c.2 + 1) ∈ w.active
    · refine Or.inr ⟨(c.1, c.2 + 1), by rw [if_pos hmem], hmem, ?_⟩
      show idx &&& uint32Not CHUNK_Y_MASK < BLOCKS_PER_CHUNK
      rw [and_not_y_mask]
      show idx % 16 + idx / 256 % 16777216 * 256 < 65536
      omega
    · exact Or.inl (by rw [if_neg hmem])
  · rw [ToNorth_interior w (some c) idx h] at hEq
    injection hEq with hEq
    subst hEq
    rw [and_y_mask, show (CHUNK_Y_MASK : Nat) = 240 from rfl] at h
    exact Or.inr ⟨c, rfl, hact, by show idx + 16 < 65536; omega⟩

theorem ToSouth_target (w : WorldState) (c : ChunkCoord) (idx : Nat) (Y : BlockLoc)
    (hact : c ∈ w.active) (hlt : idx < BLOCKS_PER_CHUNK)
    (hEq : ToSouth w ⟨some c, idx⟩ = some Y) :
    Y.chunk = none ∨ validLoc w Y := by
  have hlt' : idx < 65536 := hlt
  by_cases h : idx &&& CHUNK_Y_MASK = 0
  · rw [ToSouth_boundary w c idx h] at hEq
    injection hEq with hEq
    subst hEq
    unfold GetSouthNeighbor
    by_cases hmem : (c.1, c.2 - 1) ∈ w.active
    · refine Or.inr ⟨(c.1, c.2 - 1), by rw [if_pos hmem], hmem, ?_⟩
      show idx ||| CHUNK_Y_MASK < BLOCKS_PER_CHUNK
      rw [or_y_mask idx h]
      have hy : idx / 16 % 16 = 0 := by
        rw [and_y_mask] at h; omega
      show idx + 240 < 65536
      omega
    · exact Or.inl (by rw [if_neg hmem])
  · rw [ToSouth_interior w (some c) idx h] at hEq
    injection hEq with hEq
    subst hEq
    exact Or.inr ⟨c, rfl, hact, by show idx - 16 < 65536; omega⟩

theorem ToAbove_target (w : WorldState) (c : ChunkCoord) (idx : Nat)
    (hact : c ∈ w.active) (hlt : idx < BLOCKS_PER_CHUNK) :
    (ToAbove ⟨some c, idx⟩).chunk = none ∨ validLoc w (ToAbove ⟨some c, idx⟩) := by
  have hlt' : idx < 65536 := hlt
  by_cases h : idx &&& CHUNK_Z_MASK = CHUNK_Z_MASK
  · rw [ToAbove_top _ _ h]
    exact Or.inl rfl
  · rw [ToAbove_interior _ _ h]
    rw [and_z_mask, show (CHUNK_Z_MASK : Nat) = 65280 from rfl] at h
    refine Or.inr ⟨c, rfl, hact, ?_⟩
    show idx + BLOCKS_PER_Z_LAYER < BLOCKS_PER_CHUNK
    show idx + 256 < 65536
    omega

theorem ToBelow_target (w : WorldState) (c : ChunkCoord) (idx : Nat)
    (hact : c ∈ w.active) (hlt : idx < BLOCKS_PER_CHUNK) :
    (ToBelow ⟨some c, idx⟩).chunk = none ∨ validLoc w (ToBelow ⟨some c, idx⟩) := by
  have hlt' : idx < 65536 := hlt
  by_cases h : idx &&& CHUNK_Z_MASK = 0
  · rw [ToBelow_bottom _ _ h]
    exact Or.inl rfl
  · rw [ToBelow_interior _ _ h]
    exact Or.inr ⟨c, rfl, hact, by show idx - BLOCKS_PER_Z_LAYER < 65536; omega⟩

/-! ### A step never lands on its own block -/

theorem ToEast_ne_self (w : WorldState) (c : ChunkCoord) (idx : Nat) (Y : BlockLoc)
    (hEq : ToEast w ⟨some c, idx⟩ = some Y) :
    ¬ (Y.chunk = some c ∧ Y.blockIndex = idx) := by
  by_cases h : idx &&& CHUNK_X_MASK = CHUNK_X_MASK
  · rw [ToEast_boundary w c idx h] at hEq
    injection hEq with hEq
    subst hEq
    rintro ⟨h1, _⟩
    unfold GetEastNeighbor at h1
    by_cases hm : (c.1 + 1, c.2) ∈ w.active
    · rw [if_pos hm] at h1
      injection h1 with h1
      have : c.1 + 1 = c.1 := congrArg Prod.fst h1
      omega
    · rw [if_neg hm] at h1
      cases h1
  · rw [ToEast_interior w _ idx h] at hEq
    injection hEq with hEq
    subst hEq
    rintro ⟨_, h2⟩
    show False
    have : idx + 1 = idx := h2
    omega

theorem ToWest_ne_self (w : WorldState) (c : ChunkCoord) (idx : Nat) (Y : BlockLoc)
    (hEq : ToWest w ⟨some c, idx⟩ = some Y) :
    ¬ (Y.chunk = some c ∧ Y.blockIndex = idx) := by
  by_cases h : idx &&& CHUNK_X_MASK = 0
  · rw [ToWest_boundary w c idx h] at hEq
    injection hEq with hEq
    subst hEq
    rintro ⟨h1, _⟩
    unfold GetWestNeighbor at h1
    by_cases hm : (c.1 - 1, c.2) ∈ w.active
    · rw [if_pos hm] at h1
      injection h1 with h1
      have : c.1 - 1 = c.1 := congrArg Prod.fst h1
      omega
    · rw [if_neg hm] at h1
      cases h1
  · rw [ToWest_interior w _ idx h] at hEq
    injection hEq with hEq
    subst hEq
    rintro ⟨_, h2⟩
    rw [and_x_mask] at h
    have h2' : idx - 1 = idx := h2
    omega

theorem ToNorth_ne_self (w : WorldState) (c : ChunkCoord) (idx : Nat) (Y : BlockLoc)
    (hEq : ToNorth w ⟨some c, idx⟩ = some Y) :
    ¬ (Y.chunk = some c ∧ Y.blockIndex = idx) := by
  by_cases h : idx &&& CHUNK_Y_MASK = CHUNK_Y_MASK
  · rw [ToNorth_boundary w c idx h] at hEq
    injection hEq with hEq
    subst hEq
    rintro ⟨h1, _⟩
    unfold GetNorthNeighbor at h1
    by_cases hm : (c.1, c.2 + 1) ∈ w.active
    · rw [if_pos hm] at h1
      injection h1 with h1
      have : c.2 + 1 = c.2 := congrArg Prod.snd h1
      omega
    · rw [if_neg hm] at h1
      cases h1
  · rw [ToNorth_interior w _ idx h] at hEq
    injection hEq with hEq
    subst hEq
    rintro ⟨_, h2⟩
    have h2' : idx + CHUNK_DIMENSIONS_X = idx := h2
    have : idx + 16 = idx := h2'
    omega

theorem ToSouth_ne_self (w : WorldState) (c : ChunkCoord) (idx : Nat) (Y : BlockLoc)
    (hEq : ToSouth w ⟨some c, idx⟩ = some Y) :
    ¬ (Y.chunk = some c ∧ Y.blockIndex = idx) := by
  by_cases h : idx &&& CHUNK_Y_MASK = 0
  · rw [ToSouth_boundary w c idx h] at hEq
    injection hEq with hEq
    subst hEq
    rintro ⟨h1, _⟩
    unfold GetSouthNeighbor at h1
    by_cases hm : (c.1, c.2 - 1) ∈ w.active
    · rw [if_pos hm] at h1
      injection h1 with h1
      have : c.2 - 1 = c.2 := congrArg Prod.snd h1
      omega
    · rw [if_neg hm] at h1
      cases h1
  · rw [ToSouth_interior w _ idx h] at hEq
    injection hEq with hEq
    subst hEq
    rintro ⟨_, h2⟩
    rw [and_y_mask] at h
    have h2' : idx - CHUNK_DIMENSIONS_X = idx := h2
    have : idx - 16 = idx := h2'
    omega

theorem ToAbove_ne_self (c : ChunkCoord) (idx : Nat) :
    ¬ ((ToAbove ⟨some c, idx⟩).chunk = some c ∧ (ToAbove ⟨some c, idx⟩).blockIndex = idx) := by
  by_cases h : idx &&& CHUNK_Z_MASK = CHUNK_Z_MASK
  · rw [ToAbove_top _ _ h]
    rintro ⟨h1, _⟩
    cases h1
  · rw [ToAbove_interior _ _ h]
    rintro ⟨_, h2⟩
    have : idx + BLOCKS_PER_Z_LAYER = idx := h2
    have h2' : idx + 256 = idx := this
    omega

theorem ToBelow_ne_self (c : ChunkCoord) (idx : Nat) :
    ¬ ((ToBelow ⟨some c, idx⟩).chunk = some c ∧ (ToBelow ⟨some c, idx⟩).blockIndex = idx) := by
  by_cases h : idx &&& CHUNK_Z_MASK = 0
  · rw [ToBelow_bottom _ _ h]
    rintro ⟨h1, _⟩
    cases h1
  · rw [ToBelow_interior _ _ h]
    rintro ⟨_, h2⟩
    rw [and_z_mask] at h
    have h2' : idx - BLOCKS_PER_Z_LAYER = idx := h2
    have : idx - 256 = idx := h2'
    omega

/-! ### Symmetry of the directional steps in a consistently linked world -/

theorem ToEast_sym (w : WorldState) (c' cL : ChunkCoord) (i' idx : Nat)
    (hact' : c' ∈ w.active) (hlt' : i' < BLOCKS_PER_CHUNK)
    (hEq : ToEast w ⟨some c', i'⟩ = some ⟨some cL, idx⟩) :
    ToWest w ⟨some cL, idx⟩ = some ⟨some c', i'⟩ := by
  have hlt2 : i' < 65536 := hlt'
  by_cases h : i' &&& CHUNK_X_MASK = CHUNK_X_MASK
  · rw [ToEast_boundary w c' i' h] at hEq
    injection hEq with hEq
    rw [BlockLoc.mk.injEq] at hEq
    obtain ⟨h1, h2⟩ := hEq
    unfold GetEastNeighbor at h1
    by_cases hm : (c'.1 + 1, c'.2) ∈ w.active
    · rw [if_pos hm] at h1
      injection h1 with h1
      subst h1
      rw [and_not_x_mask i' hlt'] at h2
      subst h2
      rw [ToWest_boundary w _ _ (by rw [and_x_mask]; omega)]
      rw [show GetWestNeighbor w (c'.1 + 1, c'.2) = some c' from by
        unfold GetWestNeighbor
        rw [show ((c'.1 + 1 : Int) - 1, c'.2) = c' from by
          rw [Prod.ext_iff]; constructor <;> simp]
        rw [if_pos hact']]
      rw [and_x_mask, show (CHUNK_X_MASK : Nat) = 15 from rfl] at h
      rw [show (CHUNK_X_MASK : Nat) = 15 from rfl, mul16_or_15,
        Option.some_inj, BlockLoc.mk.injEq]
      exact ⟨rfl, by omega⟩
    · rw [if_neg hm] at h1
      cases h1
  · rw [ToEast_interior w _ i' h] at hEq
    injection hEq with hEq
    rw [BlockLoc.mk.injEq] at hEq
    obtain ⟨h1, h2⟩ := hEq
    injection h1 with h1
    subst h1
    subst h2
    rw [and_x_mask, show (CHUNK_X_MASK : Nat) = 15 from rfl] at h
    rw [ToWest_interior w _ _ (by rw [and_x_mask]; omega)]
    simp

theorem ToWest_sym (w : WorldState) (c' cL : ChunkCoord) (i' idx : Nat)
    (hact' : c' ∈ w.active) (hlt' : i' < BLOCKS_PER_CHUNK)
    (hEq : ToWest w ⟨some c', i'⟩ = some ⟨some cL, idx⟩) :
    ToEast w ⟨some cL, idx⟩ = some ⟨some c', i'⟩ := by
  have hlt2 : i' < 65536 := hlt'
  by_cases h : i' &&& CHUNK_X_MASK = 0
  · rw [ToWest_boundary w c' i' h] at hEq
    injection hEq with hEq
    rw [BlockLoc.mk.injEq] at hEq
    obtain ⟨h1, h2⟩ := hEq
    unfold GetWestNeighbor at h1
    by_cases hm : (c'.1 - 1, c'.2) ∈ w.active
    · rw [if_pos hm] at h1
      injection h1 with h1
      subst h1
      rw [and_x_mask] at h
      rw [show i' ||| CHUNK_X_MASK = i' + 15 from by
        obtain ⟨k, hk⟩ : ∃ k, i' = k * 16 := ⟨i' / 16, by omega⟩
        subst hk
        rw [show (CHUNK_X_MASK : Nat) = 15 from rfl, mul16_or_15]] at h2
      subst h2
      rw [ToEast_boundary w _ _ (by
        rw [and_x_mask, show (CHUNK_X_MASK : Nat) = 15 from rfl]
        omega)]
      rw [show GetEastNeighbor w (c'.1 - 1, c'.2) = some c' from by
        unfold GetEastNeighbor
        rw [show ((c'.1 - 1 : Int) + 1, c'.2) = c' from by
          rw [Prod.ext_iff]; constructor <;> simp]
        rw [if_pos hact']]
      rw [and_not_x_mask (i' + 15) (by show i' + 15 < 65536; omega),
        Option.some_inj, BlockLoc.mk.injEq]
      exact ⟨rfl, by omega⟩
    · rw [if_neg hm] at h1
      cases h1
  · rw [ToWest_interior w _ i' h] at hEq
    injection hEq with hEq
    rw [BlockLoc.mk.injEq] at hEq
    obtain ⟨h1, h2⟩ := hEq
    injection h1 with h1
    subst h1
    subst h2
    rw [and_x_mask] at h
    rw [ToEast_interior w _ _ (by
      rw [and_x_mask, show (CHUNK_X_MASK : Nat) = 15 from rfl]
      omega)]
    rw [Option.some_inj, BlockLoc.mk.injEq]
    exact ⟨rfl, by omega⟩

theorem ToNorth_sym (w : WorldState) (c' cL : ChunkCoord) (i' idx : Nat)
    (hact' : c' ∈ w.active) (hlt' : i' < BLOCKS_PER_CHUNK)
    (hEq : ToNorth w ⟨some c', i'⟩ = some ⟨some cL, idx⟩) :
    ToSouth w ⟨some cL, idx⟩ = some ⟨some c', i'⟩ := by
  have hlt2 : i' < 65536 := hlt'
  by_cases h : i' &&& CHUNK_Y_MASK = CHUNK_Y_MASK
  · rw [ToNorth_boundary w c' i' h] at hEq
    injection hEq with hEq
    rw [BlockLoc.mk.injEq] at hEq
    obtain ⟨h1, h2⟩ := hEq
    unfold GetNorthNeighbor at h1
    by_cases hm : (c'.1, c'.2 + 1) ∈ w.active
    · rw [if_pos hm] at h1
      injection h1 with h1
      subst h1
      rw [and_not_y_mask] at h2
      rw [and_y_mask, show (CHUNK_Y_MASK : Nat) = 240 from rfl] at h
      subst h2
      rw [ToSouth_boundary w _ _ (by rw [and_y_mask]; omega)]

      rw [show GetSouthNeighbor w (c'.1, c'.2 + 1) = some c' from by
        unfold GetSouthNeighbor
        rw [show (c'.1, (c'.2 + 1 : Int) - 1) = c' from by
          rw [Prod.ext_iff]; constructor <;> simp]
        rw [if_pos hact']]
      rw [or_y_mask _ (by rw [and_y_mask]; omega),
        Option.some_inj, BlockLoc.mk.injEq]
      exact ⟨rfl, by omega⟩
    · rw [if_neg hm] at h1
      cases h1
  · rw [ToNorth_interior w _ i' h] at hEq
    injection hEq with hEq
    rw [BlockLoc.mk.injEq] at hEq
    obtain ⟨h1, h2⟩ := hEq
    injection h1 with h1
    subst h1
    rw [show (CHUNK_DIMENSIONS_X : Nat) = 16 from rfl] at h2
    subst h2
    rw [and_y_mask, show (CHUNK_Y_MASK : Nat) = 240 from rfl] at h
    rw [ToSouth_interior w _ _ (by
      rw [and_y_mask]
      omega)]
    rw [Option.some_inj, BlockLoc.mk.injEq]
    exact ⟨rfl, by rw [show (CHUNK_DIMENSIONS_X : Nat) = 16 from rfl]; omega⟩

theorem ToSouth_sym (w : WorldState) (c' cL : ChunkCoord) (i' idx : Nat)
    (hact' : c' ∈ w.active) (hlt' : i' < BLOCKS_PER_CHUNK)
    (hEq : ToSouth w ⟨some c', i'⟩ = some ⟨some cL, idx⟩) :
    ToNorth w ⟨some cL, idx⟩ = some ⟨some c', i'⟩ := by
  have hlt2 : i' < 65536 := hlt'
  by_cases h : i' &&& CHUNK_Y_MASK = 0
  · rw [ToSouth_boundary w c' i' h] at hEq
    injection hEq with hEq
    rw [BlockLoc.mk.injEq] at hEq
    obtain ⟨h1, h2⟩ := hEq
    unfold GetSouthNeighbor at h1
    by_cases hm : (c'.1, c'.2 - 1) ∈ w.active
    · rw [if_pos hm] at h1
      injection h1 with h1
      subst h1
      rw [or_y_mask _ h] at h2
      have hy : i' / 16 % 16 = 0 := by
        rw [and_y_mask] at h; omega
      subst h2
      rw [ToNorth_boundary w _ _ (by
        rw [and_y_mask, show (CHUNK_Y_MASK : Nat) = 240 from rfl]
        omega)]
      rw [show GetNorthNeighbor w (c'.1, c'.2 - 1) = some c' from by
        unfold GetNorthNeighbor
        rw [show (c'.1, (c'.2 - 1 : Int) + 1) = c' from by
          rw [Prod.ext_iff]; constructor <;> simp]
        rw [if_pos hact']]
      rw [and_not_y_mask, Option.some_inj, BlockLoc.mk.injEq]
      exact ⟨rfl, by omega⟩
    · rw [if_neg hm] at h1
      cases h1
  · rw [ToSouth_interior w _ i' h] at hEq
    injection hEq with hEq
    rw [BlockLoc.mk.injEq] at hEq
    obtain ⟨h1, h2⟩ := hEq
    injection h1 with h1
    subst h1
    rw [show (CHUNK_DIMENSIONS_X : Nat) = 16 from rfl] at h2
    rw [and_y_mask] at h
    subst h2
    rw [ToNorth_interior w _ _ (by
      rw [and_y_mask, show (CHUNK_Y_MASK : Nat) = 240 from rfl]
      omega)]
    rw [Option.some_inj, BlockLoc.mk.injEq]
    exact ⟨rfl, by rw [show (CHUNK_DIMENSIONS_X : Nat) = 16 from rfl]; omega⟩

theorem ToAbove_sym (c' cL : ChunkCoord) (i' idx : Nat)
    (hlt' : i' < BLOCKS_PER_CHUNK)
    (hEq : ToAbove ⟨some c', i'⟩ = ⟨some cL, idx⟩) :
    ToBelow ⟨some cL, idx⟩ = ⟨some c', i'⟩ := by
  have hlt2 : i' < 65536 := hlt'
  by_cases h : i' &&& CHUNK_Z_MASK = CHUNK_Z_MASK
  · rw [ToAbove_top _ _ h] at hEq
    cases congrArg BlockLoc.chunk hEq
  · rw [ToAbove_interior _ _ h] at hEq
    rw [BlockLoc.mk.injEq] at hEq
    obtain ⟨h1, h2⟩ := hEq
    injection h1 with h1
    subst h1
    rw [show (BLOCKS_PER_Z_LAYER : Nat) = 256 from rfl] at h2
    rw [and_z_mask, show (CHUNK_Z_MASK : Nat) = 65280 from rfl] at h
    subst h2
    rw [ToBelow_interior _ _ (by
      rw [and_z_mask]
      omega)]
    rw [BlockLoc.mk.injEq]
    exact ⟨rfl, by rw [show (BLOCKS_PER_Z_LAYER : Nat) = 256 from rfl]; omega⟩

theorem ToBelow_sym (c' cL : ChunkCoord) (i' idx : Nat)
    (hlt' : i' < BLOCKS_PER_CHUNK)
    (hEq : ToBelow ⟨some c', i'⟩ = ⟨some cL, idx⟩) :
    ToAbove ⟨some cL, idx⟩ = ⟨some c', i'⟩ := by
  have hlt2 : i' < 65536 := hlt'
  by_cases h : i' &&& CHUNK_Z_MASK = 0
  · rw [ToBelow_bottom _ _ h] at hEq
    cases congrArg BlockLoc.chunk hEq
  · rw [ToBelow_interior _ _ h] at hEq
    rw [BlockLoc.mk.injEq] at hEq
    obtain ⟨h1, h2⟩ := hEq
    injection h1 with h1
    subst h1
    rw [show (BLOCKS_PER_Z_LAYER : Nat) = 256 from rfl] at h2
    rw [and_z_mask] at h
    subst h2
    rw [ToAbove_interior _ _ (by
      rw [and_z_mask, show (CHUNK_Z_MASK : Nat) = 65280 from rfl]
      omega)]
    rw [BlockLoc.mk.injEq]
    exact ⟨rfl, by rw [show (BLOCKS_PER_Z_LAYER : Nat) = 256 from rfl]; omega⟩

/-! ### Characterization of one relaxation call -/

theorem recalc_some_eq (w : WorldState) (L eL wL nL sL : BlockLoc)
    (hE : ToEast w L = some eL) (hW : ToWest w L = some wL)
    (hN : ToNorth w L = some nL) (hS : ToSouth w L = some sL) :
    RecalculateLightingForBlock w L
      = if expectedIndoorLight w (GetBlock w L) (neighborBlocks w L) ≠ (GetBlock w L).indoor
          ∨ expectedOutdoorLight w (GetBlock w L) (neighborBlocks w L) ≠ (GetBlock w L).outdoor
        then some (addAllDirty
          (match L.chunk with
           | none => w
           | some c => setBlockLight w c L.blockIndex
               (expectedIndoorLight w (GetBlock w L) (neighborBlocks w L))
               (expectedOutdoorLight w (GetBlock w L) (neighborBlocks w L)))
          [eL, wL, nL, sL, ToAbove L, ToBelow L])
        else some w := by
  have hnb : neighborBlocks w L
      = [GetBlock w eL, GetBlock w wL, GetBlock w nL, GetBlock w sL,
         GetBlock w (ToAbove L), GetBlock w (ToBelow L)] := by
    unfold neighborBlocks stepBlock
    rw [hE, hW, hN, hS]
  unfold RecalculateLightingForBlock
  rw [hE, hW, hN, hS, hnb]
  simp only [Option.bind_eq_bind, Option.some_bind]
  rfl

/-- A relaxation call on a block whose lighting is already correct leaves
the world untouched: nothing is stored and nothing is enqueued. -/
theorem recalc_correct_noop (w : WorldState) (c : ChunkCoord) (L : BlockLoc)
    (hc : L.chunk = some c) (hcorrect : lightingCorrect w L) :
    RecalculateLightingForBlock w L = some w := by
  obtain ⟨eL, hE⟩ := ToEast_some w c (L.blockIndex)
  obtain ⟨wL, hW⟩ := ToWest_some w c (L.blockIndex)
  obtain ⟨nL, hN⟩ := ToNorth_some w c (L.blockIndex)
  obtain ⟨sL, hS⟩ := ToSouth_some w c (L.blockIndex)
  have hLeta : L = ⟨some c, L.blockIndex⟩ := by
    cases L
    cases hc
    rfl
  rw [hLeta] at hcorrect ⊢
  rw [recalc_some_eq _ _ _ _ _ _ hE hW hN hS]
  rw [if_neg (by
    push_neg
    exact ⟨hcorrect.1.symm, hcorrect.2.symm⟩)]

/-! ### Light-level bounds -/

theorem GetBlock_light_le (w : WorldState)
    (hlb : ∀ c i, (w.blocks c i).indoor ≤ 15 ∧ (w.blocks c i).outdoor ≤ 15)
    (L : BlockLoc) :
    (GetBlock w L).indoor ≤ 15 ∧ (GetBlock w L).outdoor ≤ 15 := by
  cases hL : L.chunk with
  | none => rw [GetBlock_none _ _ hL]; exact ⟨by simp [MISSING_BLOCK], by simp [MISSING_BLOCK]⟩
  | some c =>
    rw [GetBlock_some _ c _ hL]
    split
    · exact hlb c L.blockIndex
    · exact ⟨by simp [MISSING_BLOCK], by simp [MISSING_BLOCK]⟩

theorem neighborBlocks_light_le (w : WorldState)
    (hlb : ∀ c i, (w.blocks c i).indoor ≤ 15 ∧ (w.blocks c i).outdoor ≤ 15)
    (L : BlockLoc) :
    ∀ b ∈ neighborBlocks w L, b.indoor ≤ 15 ∧ b.outdoor ≤ 15 := by
  have hstep : ∀ o : Option BlockLoc,
      (stepBlock w o).indoor ≤ 15 ∧ (stepBlock w o).outdoor ≤ 15 := by
    intro o
    cases o with
    | none => exact ⟨by simp [stepBlock, MISSING_BLOCK], by simp [stepBlock, MISSING_BLOCK]⟩
    | some Y => exact GetBlock_light_le w hlb Y
  intro b hb
  unfold neighborBlocks at hb
  simp only [List.mem_cons, List.not_mem_nil, or_false] at hb
  rcases hb with rfl | rfl | rfl | rfl | rfl | rfl
  · exact hstep _
  · exact hstep _
  · exact hstep _
  · exact hstep _
  · exact GetBlock_light_le w hlb _
  · exact GetBlock_light_le w hlb _

theorem maxIndoor_le (nbrs : List Block) (h : ∀ b ∈ nbrs, b.indoor ≤ 15) :
    maxIndoor nbrs ≤ 15 := by
  unfold maxIndoor
  induction nbrs with
  | nil => simp
  | cons b nbrs ih =>
    simp only [List.foldr_cons]
    exact Nat.max_le.2 ⟨h b (List.mem_cons_self b nbrs),
      ih (fun b2 hb2 => h b2 (List.mem_cons_of_mem b hb2))⟩

theorem expectedIndoorLight_le (w : WorldState) (curr : Block) (nbrs : List Block)
    (hwf : ∀ t, (w.reg t).internalLightLevel ≤ BLOCK_MAX_LIGHTING)
    (hnb : ∀ b ∈ nbrs, b.indoor ≤ 15) :
    expectedIndoorLight w curr nbrs ≤ 15 := by
  unfold expectedIndoorLight
  split
  · exact hwf curr.typeIndex
  · exact Nat.max_le.2 ⟨by have := maxIndoor_le nbrs hnb; omega, hwf curr.typeIndex⟩

theorem expectedOutdoorLight_le (w : WorldState) (curr : Block) (nbrs : List Block) :
    expectedOutdoorLight w curr nbrs ≤ 15 := by
  unfold expectedOutdoorLight
  split
  · exact Nat.le.refl
  · split
    · exact le_trans (Nat.min_le_right _ _) Nat.le.refl
    · omega

theorem GetBlock_setBlockLight_other (w : WorldState) (c : ChunkCoord)
    (idx ind outd : Nat) (L : BlockLoc)
    (h : ¬(L.chunk = some c ∧ L.blockIndex = idx)) :
    GetBlock (setBlockLight w c idx ind outd) L = GetBlock w L := by
  unfold setBlockLight
  rw [GetBlock_updateBlock, if_neg (by rintro ⟨h1, h2, _⟩; exact h ⟨h1, h2⟩)]

theorem GetBlock_setBlockLight_self (w : WorldState) (c : ChunkCoord)
    (idx ind outd : Nat) (L : BlockLoc)
    (hc : L.chunk = some c) (hi : L.blockIndex = idx) (hact : c ∈ w.active) :
    GetBlock (setBlockLight w c idx ind outd) L
      = { GetBlock w L with indoor := ind % 16, outdoor := outd % 16 } := by
  unfold setBlockLight
  rw [GetBlock_updateBlock, if_pos ⟨hc, hi, hact⟩]

/-- Storing light at one block leaves the fixed-point predicate of any block
that reads neither that block as itself nor as one of its six neighbors
unchanged. -/
theorem lightingCorrect_setLight_congr (w : WorldState) (c : ChunkCoord)
    (idx ind outd : Nat) (L' : BlockLoc)
    (hown : ¬(L'.chunk = some c ∧ L'.blockIndex = idx))
    (hE : ∀ Y, ToEast w L' = some Y → ¬(Y.chunk = some c ∧ Y.blockIndex = idx))
    (hW : ∀ Y, ToWest w L' = some Y → ¬(Y.chunk = some c ∧ Y.blockIndex = idx))
    (hN : ∀ Y, ToNorth w L' = some Y → ¬(Y.chunk = some c ∧ Y.blockIndex = idx))
    (hS : ∀ Y, ToSouth w L' = some Y → ¬(Y.chunk = some c ∧ Y.blockIndex = idx))
    (hA : ¬((ToAbove L').chunk = some c ∧ (ToAbove L').blockIndex = idx))
    (hB : ¬((ToBelow L').chunk = some c ∧ (ToBelow L').blockIndex = idx)) :
    lightingCorrect (setBlockLight w c idx ind outd) L' ↔ lightingCorrect w L' := by
  have hact : (setBlockLight w c idx ind outd).active = w.active := rfl
  have hstE := ToEast_active_congr w _ hact L'
  have hstW := ToWest_active_congr w _ hact L'
  have hstN := ToNorth_active_congr w _ hact L'
  have hstS := ToSouth_active_congr w _ hact L'
  have hGB : GetBlock (setBlockLight w c idx ind outd) L' = GetBlock w L' :=
    GetBlock_setBlockLight_other w c idx ind outd L' hown
  have hnb : neighborBlocks (setBlockLight w c idx ind outd) L' = neighborBlocks w L' := by
    unfold neighborBlocks
    rw [hstE, hstW, hstN, hstS]
    have he : stepBlock (setBlockLight w c idx ind outd) (ToEast w L')
        = stepBlock w (ToEast w L') := by
      cases hY : ToEast w L' with
      | none => rfl
      | some Y => exact GetBlock_setBlockLight_other w c idx ind outd Y (hE Y hY)
    have hw' : stepBlock (setBlockLight w c idx ind outd) (ToWest w L')
        = stepBlock w (ToWest w L') := by
      cases hY : ToWest w L' with
      | none => rfl
      | some Y => exact GetBlock_setBlockLight_other w c idx ind outd Y (hW Y hY)
    have hn' : stepBlock (setBlockLight w c idx ind outd) (ToNorth w L')
        = stepBlock w (ToNorth w L') := by
      cases hY : ToNorth w L' with
      | none => rfl
      | some Y => exact GetBlock_setBlockLight_other w c idx ind outd Y (hN Y hY)
    have hs' : stepBlock (setBlockLight w c idx ind outd) (ToSouth w L')
        = stepBlock w (ToSouth w L') := by
      cases hY : ToSouth w L' with
      | none => rfl
      | some Y => exact GetBlock_setBlockLight_other w c idx ind outd Y (hS Y hY)
    have ha' : GetBlock (setBlockLight w c idx ind outd) (ToAbove L')
        = GetBlock w (ToAbove L') :=
      GetBlock_setBlockLight_other w c idx ind outd _ hA
    have hb' : GetBlock (setBlockLight w c idx ind outd) (ToBelow L')
        = GetBlock w (ToBelow L') :=
      GetBlock_setBlockLight_other w c idx ind outd _ hB
    rw [he, hw', hn', hs', ha', hb']
  unfold lightingCorrect
  rw [hGB, hnb,
    show expectedIndoorLight (setBlockLight w c idx ind outd) = expectedIndoorLight w from rfl,
    show expectedOutdoorLight (setBlockLight w c idx ind outd) = expectedOutdoorLight w from rfl]

theorem removeFront_eq_valid (w : WorldState) (L : BlockLoc) (rest : List BlockLoc)
    (c : ChunkCoord) (hq : w.dirtyQueue = L :: rest) (hc : L.chunk = some c) :
    RemoveFrontBlockFromDirtyLightingList w
      = some (L, updateBlock { w with dirtyQueue := rest } c L.blockIndex
          (fun b => { b with isInDirtyLightingList := false })) := by
  have h1 : RemoveFrontBlockFromDirtyLightingList w = some (L, match L.chunk with
      | none => { w with dirtyQueue := rest }
      | some c2 => updateBlock { w with dirtyQueue := rest } c2 L.blockIndex
          (fun b => { b with isInDirtyLightingList := false })) := by
    unfold RemoveFrontBlockFromDirtyLightingList
    rw [hq]
  rw [h1, hc]

theorem GetBlock_setBlockLight_flag (w : WorldState) (c : ChunkCoord)
    (idx ind outd : Nat) (X : BlockLoc) :
    (GetBlock (setBlockLight w c idx ind outd) X).isInDirtyLightingList
      = (GetBlock w X).isInDirtyLightingList := by
  unfold setBlockLight
  rw [GetBlock_updateBlock]
  split
  · rfl
  · rfl

theorem expectedIndoorLight_curr_congr (w : WorldState) (b b' : Block)
    (h : b'.typeIndex = b.typeIndex) (nbrs : List Block) :
    expectedIndoorLight w b' nbrs = expectedIndoorLight w b nbrs := by
  unfold expectedIndoorLight
  rw [h]

theorem expectedOutdoorLight_curr_congr (w : WorldState) (b b' : Block)
    (ht : b'.typeIndex = b.typeIndex) (hs : b'.isPartOfSky = b.isPartOfSky)
    (nbrs : List Block) :
    expectedOutdoorLight w b' nbrs = expectedOutdoorLight w b nbrs := by
  unfold expectedOutdoorLight
  rw [ht, hs]


/-- One drain iteration (pop the front locator, recalculate it) preserves
the lighting invariant. -/
theorem lighting_step_inv (w : WorldState) (L : BlockLoc) (rest : List BlockLoc)
    (hwf : ∀ t, (w.reg t).internalLightLevel ≤ BLOCK_MAX_LIGHTING)
    (hinv : LightingInv w)
    (hq : w.dirtyQueue = L :: rest) :
    ∃ w1 w2, RemoveFrontBlockFromDirtyLightingList w = some (L, w1)
      ∧ RecalculateLightingForBlock w1 L = some w2
      ∧ LightingInv w2 ∧ w2.reg = w.reg := by
  obtain ⟨hqv, hnd, hfq, hlb, hviol⟩ := hinv
  have hmemL : L ∈ w.dirtyQueue := by rw [hq]; exact List.mem_cons_self L rest
  obtain ⟨c, hc, hact, hlt⟩ := hqv L hmemL
  obtain ⟨Lc, idx⟩ := L
  cases hc
  have hLnotin : (⟨some c, idx⟩ : BlockLoc) ∉ rest := by
    rw [hq] at hnd
    exact (List.nodup_cons.1 hnd).1
  have hndrest : rest.Nodup := by
    rw [hq] at hnd
    exact (List.nodup_cons.1 hnd).2
  have hlt' : idx < BLOCKS_PER_CHUNK := hlt
  set w1 := updateBlock { w with dirtyQueue := rest } c idx
      (fun b => { b with isInDirtyLightingList := false }) with hw1def
  have hRF : RemoveFrontBlockFromDirtyLightingList w = some (⟨some c, idx⟩, w1) :=
    removeFront_eq_valid w _ rest c hq rfl
  have hw1act : w1.active = w.active := rfl
  have hw1reg : w1.reg = w.reg := rfl
  have hw1q : w1.dirtyQueue = rest := rfl
  have hactw1 : c ∈ w1.active := hact
  have hsame1 : SameLighting w w1 :=
    @sameLighting_trans w { w with dirtyQueue := rest } w1
      ⟨rfl, rfl, fun _ _ => ⟨rfl, rfl, rfl, rfl⟩⟩
      (sameLighting_updateFlag _ c idx false)
  have hlb1 : ∀ c2 i2, (w1.blocks c2 i2).indoor ≤ 15 ∧ (w1.blocks c2 i2).outdoor ≤ 15 := by
    intro c2 i2
    obtain ⟨_, hi, ho, _⟩ := hsame1.2.2 c2 i2
    rw [hi, ho]
    exact hlb c2 i2
  have hGBw1 : ∀ X : BlockLoc,
      GetBlock w1 X = if X.chunk = some c ∧ X.blockIndex = idx ∧ c ∈ w.active
        then { GetBlock w X with isInDirtyLightingList := false } else GetBlock w X :=
    fun X => GetBlock_updateBlock { w with dirtyQueue := rest } c idx _ X
  have hfq1 : ∀ X, validLoc w1 X →
      ((GetBlock w1 X).isInDirtyLightingList = true ↔ X ∈ rest) := by
    intro X hvX
    have hvX' : validLoc w X := (validLoc_congr w w1 hw1act X).1 hvX
    obtain ⟨cX, hcX, hactX, hltX⟩ := hvX'
    rw [hGBw1 X]
    by_cases hXL : X = ⟨some c, idx⟩
    · subst hXL
      rw [if_pos ⟨rfl, rfl, hact⟩]
      simp only [show ({ GetBlock w ⟨some c, idx⟩ with
        isInDirtyLightingList := false }).isInDirtyLightingList = false from rfl]
      constructor
      · intro h; cases h
      · intro h; exact absurd h hLnotin
    · rw [if_neg (by
        rintro ⟨h1, h2, _⟩
        exact hXL (by
          obtain ⟨Xc, Xi⟩ := X
          cases h1
          cases h2
          rfl))]
      rw [hfq X ⟨cX, hcX, hactX, hltX⟩, hq]
      simp only [List.mem_cons]
      constructor
      · rintro (h | h)
        · exact absurd h hXL
        · exact h
      · exact fun h => Or.inr h
  have hqv1 : ∀ X ∈ w1.dirtyQueue, validLoc w1 X := by
    intro X hX
    exact (validLoc_congr w w1 hw1act X).2
      (hqv X (by rw [hq]; exact List.mem_cons_of_mem _ hX))
  obtain ⟨eL, hE⟩ := ToEast_some w1 c idx
  obtain ⟨wL, hW⟩ := ToWest_some w1 c idx
  obtain ⟨nL, hN⟩ := ToNorth_some w1 c idx
  obtain ⟨sL, hS⟩ := ToSouth_some w1 c idx
  by_cases hcorrect : lightingCorrect w1 ⟨some c, idx⟩
  · refine ⟨w1, w1, hRF, recalc_correct_noop w1 c _ rfl hcorrect, ?_, hw1reg⟩
    refine ⟨hqv1, by rw [hw1q]; exact hndrest, hfq1, hlb1, ?_⟩
    intro X hvX hnc
    have hvXw : validLoc w X := (validLoc_congr w w1 hw1act X).1 hvX
    have hncw : ¬ lightingCorrect w X := by
      intro hcw
      exact hnc ((lightingCorrect_sameLighting w w1 hsame1 X).2 hcw)
    have hmem := hviol X hvXw hncw
    rw [hq] at hmem
    rcases List.mem_cons.1 hmem with hXeq | hmem
    · exact absurd (show lightingCorrect w1 X by rw [hXeq]; exact hcorrect) hnc
    · rw [hw1q]; exact hmem
  · have hcond : expectedIndoorLight w1 (GetBlock w1 ⟨some c, idx⟩) (neighborBlocks w1 ⟨some c, idx⟩)
          ≠ (GetBlock w1 ⟨some c, idx⟩).indoor
        ∨ expectedOutdoorLight w1 (GetBlock w1 ⟨some c, idx⟩) (neighborBlocks w1 ⟨some c, idx⟩)
          ≠ (GetBlock w1 ⟨some c, idx⟩).outdoor := by
      by_contra hcon
      push_neg at hcon
      exact hcorrect ⟨hcon.1.symm, hcon.2.symm⟩
    set expI := expectedIndoorLight w1 (GetBlock w1 ⟨some c, idx⟩)
        (neighborBlocks w1 ⟨some c, idx⟩) with hexpIdef
    set expO := expectedOutdoorLight w1 (GetBlock w1 ⟨some c, idx⟩)
        (neighborBlocks w1 ⟨some c, idx⟩) with hexpOdef
    set wSet := setBlockLight w1 c idx expI expO with hwSetdef
    set ls : List BlockLoc := [eL, wL, nL, sL, ToAbove ⟨some c, idx⟩, ToBelow ⟨some c, idx⟩]
      with hlsdef
    have hRC : RecalculateLightingForBlock w1 ⟨some c, idx⟩ = some (addAllDirty wSet ls) := by
      rw [recalc_some_eq w1 _ _ _ _ _ hE hW hN hS, if_pos hcond]
    have hwf1 : ∀ t, (w1.reg t).internalLightLevel ≤ BLOCK_MAX_LIGHTING := hwf
    have hexpIle : expI ≤ 15 :=
      expectedIndoorLight_le w1 _ _ hwf1
        (fun b hb => (neighborBlocks_light_le w1 hlb1 _ b hb).1)
    have hexpOle : expO ≤ 15 := expectedOutdoorLight_le w1 _ _
    have hGBset_self : GetBlock wSet ⟨some c, idx⟩
        = { GetBlock w1 ⟨some c, idx⟩ with indoor := expI, outdoor := expO } := by
      rw [hwSetdef, GetBlock_setBlockLight_self w1 c idx expI expO _ rfl rfl hactw1,
        Nat.mod_eq_of_lt (by omega), Nat.mod_eq_of_lt (by omega)]
    have hlbSet : ∀ c2 i2, (wSet.blocks c2 i2).indoor ≤ 15 ∧ (wSet.blocks c2 i2).outdoor ≤ 15 := by
      intro c2 i2
      have hb : wSet.blocks c2 i2 = if c2 = c ∧ i2 = idx
          then { w1.blocks c2 i2 with indoor := expI % 16, outdoor := expO % 16 }
          else w1.blocks c2 i2 := by
        rw [hwSetdef]
        exact updateBlock_blocks w1 c idx _ c2 i2
      rw [hb]
      split
      · constructor
        · show expI % 16 ≤ 15
          omega
        · show expO % 16 ≤ 15
          omega
      · exact hlb1 c2 i2
  -- flag/queue facts carry over to the stored state
    have hfqSet : ∀ X, validLoc wSet X →
        ((GetBlock wSet X).isInDirtyLightingList = true ↔ X ∈ wSet.dirtyQueue) := by
      intro X hvX
      rw [show wSet.dirtyQueue = rest from rfl, hwSetdef, GetBlock_setBlockLight_flag]
      exact hfq1 X ((validLoc_congr w1 wSet rfl X).1 hvX)
    have hqvSet : ∀ X ∈ wSet.dirtyQueue, validLoc wSet X := by
      intro X hX
      exact (validLoc_congr w1 wSet rfl X).2 (hqv1 X hX)
    have hXls : ∀ X ∈ ls, X.chunk = none ∨ validLoc wSet X := by
      have htr : ∀ {Y : BlockLoc}, Y.chunk = none ∨ validLoc w1 Y →
          Y.chunk = none ∨ validLoc wSet Y := by
        rintro Y (h | h)
        · exact Or.inl h
        · exact Or.inr ((validLoc_congr w1 wSet rfl Y).2 h)
      intro X hX
      rw [hlsdef] at hX
      simp only [List.mem_cons, List.not_mem_nil, or_false] at hX
      rcases hX with rfl | rfl | rfl | rfl | rfl | rfl
      · exact htr (ToEast_target w1 c idx _ hactw1 hlt' hE)
      · exact htr (ToWest_target w1 c idx _ hactw1 hlt' hW)
      · exact htr (ToNorth_target w1 c idx _ hactw1 hlt' hN)
      · exact htr (ToSouth_target w1 c idx _ hactw1 hlt' hS)
      · exact htr (ToAbove_target w1 c idx hactw1 hlt')
      · exact htr (ToBelow_target w1 c idx hactw1 hlt')
    have hnbSet : neighborBlocks wSet ⟨some c, idx⟩ = neighborBlocks w1 ⟨some c, idx⟩ := by
      unfold neighborBlocks
      rw [ToEast_active_congr w1 wSet rfl, ToWest_active_congr w1 wSet rfl,
        ToNorth_active_congr w1 wSet rfl, ToSouth_active_congr w1 wSet rfl, hE, hW, hN, hS]
      rw [show stepBlock wSet (some eL) = GetBlock wSet eL from rfl,
        show stepBlock wSet (some wL) = GetBlock wSet wL from rfl,
        show stepBlock wSet (some nL) = GetBlock wSet nL from rfl,
        show stepBlock wSet (some sL) = GetBlock wSet sL from rfl,
        show stepBlock w1 (some eL) = GetBlock w1 eL from rfl,
        show stepBlock w1 (some wL) = GetBlock w1 wL from rfl,
        show stepBlock w1 (some nL) = GetBlock w1 nL from rfl,
        show stepBlock w1 (some sL) = GetBlock w1 sL from rfl, hwSetdef]
      rw [GetBlock_setBlockLight_other w1 c idx expI expO eL (ToEast_ne_self w1 c idx eL hE),
        GetBlock_setBlockLight_other w1 c idx expI expO wL (ToWest_ne_self w1 c idx wL hW),
        GetBlock_setBlockLight_other w1 c idx expI expO nL (ToNorth_ne_self w1 c idx nL hN),
        GetBlock_setBlockLight_other w1 c idx expI expO sL (ToSouth_ne_self w1 c idx sL hS),
        GetBlock_setBlockLight_other w1 c idx expI expO _ (ToAbove_ne_self c idx),
        GetBlock_setBlockLight_other w1 c idx expI expO _ (ToBelow_ne_self c idx)]
    have hcorrSet : lightingCorrect wSet ⟨some c, idx⟩ := by
      unfold lightingCorrect
      rw [hGBset_self, hnbSet]
      constructor
      · show expI = expectedIndoorLight wSet _ _
        rw [show expectedIndoorLight wSet = expectedIndoorLight w1 from rfl]
        rw [expectedIndoorLight_curr_congr w1 (GetBlock w1 ⟨some c, idx⟩)
          { GetBlock w1 ⟨some c, idx⟩ with indoor := expI, outdoor := expO } rfl]
      · show expO = expectedOutdoorLight wSet _ _
        rw [show expectedOutdoorLight wSet = expectedOutdoorLight w1 from rfl]
        rw [expectedOutdoorLight_curr_congr w1 (GetBlock w1 ⟨some c, idx⟩)
          { GetBlock w1 ⟨some c, idx⟩ with indoor := expI, outdoor := expO } rfl rfl]
    have haddSame : SameLighting wSet (addAllDirty wSet ls) := addAllDirty_sameLighting ls wSet
    have haddinv := addAllDirty_inv ls wSet hXls hqvSet (by
      rw [show wSet.dirtyQueue = rest from rfl]; exact hndrest) hfqSet
    refine ⟨w1, addAllDirty wSet ls, hRF, hRC, ⟨haddinv.1, haddinv.2.1, haddinv.2.2.1, ?_, ?_⟩,
      (haddSame.1).trans rfl⟩
    · intro c2 i2
      obtain ⟨_, hi, ho, _⟩ := haddSame.2.2 c2 i2
      rw [hi, ho]
      exact hlbSet c2 i2
    · -- every still-violating block is queued
      intro X hvX hnc
      have hvXSet : validLoc wSet X := (validLoc_congr wSet _ haddSame.2.1 X).1 hvX
      have hvX1 : validLoc w1 X := (validLoc_congr w1 wSet rfl X).1 hvXSet
      have hncSet : ¬ lightingCorrect wSet X := fun hcs =>
        hnc ((lightingCorrect_sameLighting wSet _ haddSame X).2 hcs)
      obtain ⟨Xc, Xi⟩ := X
      obtain ⟨cX, hcX, hactX, hltX⟩ := hvX1
      cases hcX
      by_cases hXL : (⟨some cX, Xi⟩ : BlockLoc) = ⟨some c, idx⟩
      · rw [hXL] at hncSet
        exact (hncSet hcorrSet).elim
      · by_cases hhit :
            (∃ Y, ToEast w1 ⟨some cX, Xi⟩ = some Y ∧ Y.chunk = some c ∧ Y.blockIndex = idx)
          ∨ (∃ Y, ToWest w1 ⟨some cX, Xi⟩ = some Y ∧ Y.chunk = some c ∧ Y.blockIndex = idx)
          ∨ (∃ Y, ToNorth w1 ⟨some cX, Xi⟩ = some Y ∧ Y.chunk = some c ∧ Y.blockIndex = idx)
          ∨ (∃ Y, ToSouth w1 ⟨some cX, Xi⟩ = some Y ∧ Y.chunk = some c ∧ Y.blockIndex = idx)
          ∨ ((ToAbove ⟨some cX, Xi⟩).chunk = some c ∧ (ToAbove ⟨some cX, Xi⟩).blockIndex = idx)
          ∨ ((ToBelow ⟨some cX, Xi⟩).chunk = some c ∧ (ToBelow ⟨some cX, Xi⟩).blockIndex = idx)
        · -- the popped block is one of X's neighbors, so X is one of the six
          -- enqueued step locators
          have hmem6 := haddinv.2.2.2
          have hvXSet' : validLoc wSet ⟨some cX, Xi⟩ := hvXSet
          rcases hhit with ⟨Y, hY, hYc, hYi⟩ | ⟨Y, hY, hYc, hYi⟩ | ⟨Y, hY, hYc, hYi⟩ |
            ⟨Y, hY, hYc, hYi⟩ | ⟨hYc, hYi⟩ | ⟨hYc, hYi⟩
          · have hYeq : Y = ⟨some c, idx⟩ := by
              obtain ⟨a, b⟩ := Y
              cases hYc
              cases hYi
              rfl
            rw [hYeq] at hY
            have hsym := ToEast_sym w1 cX c Xi idx hactX hltX hY
            rw [hW] at hsym
            injection hsym with hsym
            rw [← hsym]
            exact hmem6 wL (by rw [hlsdef]; simp) (by rw [hsym]; exact hvXSet')
          · have hYeq : Y = ⟨some c, idx⟩ := by
              obtain ⟨a, b⟩ := Y
              cases hYc
              cases hYi
              rfl
            rw [hYeq] at hY
            have hsym := ToWest_sym w1 cX c Xi idx hactX hltX hY
            rw [hE] at hsym
            injection hsym with hsym
            rw [← hsym]
            exact hmem6 eL (by rw [hlsdef]; simp) (by rw [hsym]; exact hvXSet')
          · have hYeq : Y = ⟨some c, idx⟩ := by
              obtain ⟨a, b⟩ := Y
              cases hYc
              cases hYi
              rfl
            rw [hYeq] at hY
            have hsym := ToNorth_sym w1 cX c Xi idx hactX hltX hY
            rw [hS] at hsym
            injection hsym with hsym
            rw [← hsym]
            exact hmem6 sL (by rw [hlsdef]; simp) (by rw [hsym]; exact hvXSet')
          · have hYeq : Y = ⟨some c, idx⟩ := by
              obtain ⟨a, b⟩ := Y
              cases hYc
              cases hYi
              rfl
            rw [hYeq] at hY
            have hsym := ToSouth_sym w1 cX c Xi idx hactX hltX hY
            rw [hN] at hsym
            injection hsym with hsym
            rw [← hsym]
            exact hmem6 nL (by rw [hlsdef]; simp) (by rw [hsym]; exact hvXSet')
          · have hY : ToAbove (⟨some cX, Xi⟩ : BlockLoc) = ⟨some c, idx⟩ := by
              rcases hTA : ToAbove (⟨some cX, Xi⟩ : BlockLoc) with ⟨a, b⟩
              rw [hTA] at hYc hYi
              have h1 : a = some c := hYc
              have h2 : b = idx := hYi
              rw [h1, h2]
            have hsym := ToAbove_sym cX c Xi idx hltX hY
            rw [← hsym]
            exact hmem6 _ (by rw [hlsdef]; simp) (by rw [hsym]; exact hvXSet')
          · have hY : ToBelow (⟨some cX, Xi⟩ : BlockLoc) = ⟨some c, idx⟩ := by
              rcases hTB : ToBelow (⟨some cX, Xi⟩ : BlockLoc) with ⟨a, b⟩
              rw [hTB] at hYc hYi
              have h1 : a = some c := hYc
              have h2 : b = idx := hYi
              rw [h1, h2]
            have hsym := ToBelow_sym cX c Xi idx hltX hY
            rw [← hsym]
            exact hmem6 _ (by rw [hlsdef]; simp) (by rw [hsym]; exact hvXSet')
        · -- X is unaffected by the write, so it was violating before and sits in rest
          push_neg at hhit
          obtain ⟨hhE, hhW, hhN, hhS, hhA, hhB⟩ := hhit
          have hown : ¬((⟨some cX, Xi⟩ : BlockLoc).chunk = some c
              ∧ (⟨some cX, Xi⟩ : BlockLoc).blockIndex = idx) := by
            rintro ⟨h1, h2⟩
            apply hXL
            have h1' : some cX = some c := h1
            have h2' : Xi = idx := h2
            injection h1' with h1'
            rw [h1', h2']
          have hcongr := lightingCorrect_setLight_congr w1 c idx expI expO ⟨some cX, Xi⟩ hown
            (fun Y h hp => hhE Y h hp.1 hp.2) (fun Y h hp => hhW Y h hp.1 hp.2)
            (fun Y h hp => hhN Y h hp.1 hp.2) (fun Y h hp => hhS Y h hp.1 hp.2)
            (fun hp => hhA hp.1 hp.2) (fun hp => hhB hp.1 hp.2)
          have hncw1 : ¬ lightingCorrect w1 ⟨some cX, Xi⟩ := fun h => hncSet (hcongr.mpr h)
          have hncw : ¬ lightingCorrect w ⟨some cX, Xi⟩ := fun h =>
            hncw1 ((lightingCorrect_sameLighting w w1 hsame1 _).mpr h)
          have hvXw : validLoc w ⟨some cX, Xi⟩ :=
            (validLoc_congr w w1 hw1act _).1 ⟨cX, rfl, hactX, hltX⟩
          have hmemX := hviol _ hvXw hncw
          rw [hq] at hmemX
          rcases List.mem_cons.1 hmemX with hXeq | hmemX
          · exact absurd hXeq hXL
          · exact addAllDirty_queue_mono ls wSet _ hmemX

/-- Draining the queue (with any fuel) preserves the lighting invariant and
ends with an empty queue and the same registry. -/
theorem UpdateLighting_inv : ∀ (fuel : Nat) (w w' : WorldState),
    (∀ t, (w.reg t).internalLightLevel ≤ BLOCK_MAX_LIGHTING) →
    LightingInv w → UpdateLighting fuel w = some w' →
    LightingInv w' ∧ w'.dirtyQueue = [] ∧ w'.reg = w.reg := by
  intro fuel
  induction fuel with
  | zero =>
    intro w w' hwf hinv hrun
    unfold UpdateLighting at hrun
    cases hq : w.dirtyQueue with
    | nil =>
      rw [hq] at hrun
      have hww : some w = some w' := hrun
      injection hww with hww
      subst hww
      exact ⟨hinv, hq, rfl⟩
    | cons a as =>
      rw [hq] at hrun
      have hww : (none : Option WorldState) = some w' := hrun
      exact Option.noConfusion hww
  | succ fuel ih =>
    intro w w' hwf hinv hrun
    cases hq : w.dirtyQueue with
    | nil =>
      have hRF : RemoveFrontBlockFromDirtyLightingList w = none := by
        unfold RemoveFrontBlockFromDirtyLightingList
        rw [hq]
      unfold UpdateLighting at hrun
      rw [hRF] at hrun
      have hww : some w = some w' := hrun
      injection hww with hww
      subst hww
      exact ⟨hinv, hq, rfl⟩
    | cons L rest =>
      obtain ⟨w1, w2, hRF, hRC, hinv2, hreg2⟩ := lighting_step_inv w L rest hwf hinv hq
      unfold UpdateLighting at hrun
      rw [hRF] at hrun
      have hrun2 : (do
          let w2 ← RecalculateLightingForBlock w1 L
          UpdateLighting fuel w2) = some w' := hrun
      rw [hRC] at hrun2
      simp only [Option.bind_eq_bind, Option.some_bind] at hrun2
      have hwf2 : ∀ t, (w2.reg t).internalLightLevel ≤ BLOCK_MAX_LIGHTING := by
        intro t
        rw [hreg2]
        exact hwf t
      obtain ⟨hi, hqd, hr⟩ := ih w2 w' hwf2 hinv2 hrun2
      exact ⟨hi, hqd, hr.trans hreg2⟩

/-- Every block read of the single-chunk test world yields a block with both
light values zero, air type, and no sky flag. -/
theorem singleChunk_GetBlock_fields (L : BlockLoc) :
    (GetBlock singleChunkWorld L).indoor = 0
    ∧ (GetBlock singleChunkWorld L).outdoor = 0
    ∧ (GetBlock singleChunkWorld L).typeIndex = 0
    ∧ (GetBlock singleChunkWorld L).isPartOfSky = false := by
  obtain ⟨lc, li⟩ := L
  cases lc with
  | none => exact ⟨rfl, rfl, rfl, rfl⟩
  | some c =>
    have h : GetBlock singleChunkWorld ⟨some c, li⟩
        = if c ∈ singleChunkWorld.active then singleChunkWorld.blocks c li
          else MISSING_BLOCK := rfl
    rw [h]
    split
    · exact ⟨rfl, rfl, rfl, rfl⟩
    · exact ⟨rfl, rfl, rfl, rfl⟩

/-- Every stepped block read of the single-chunk test world has both light
values zero. -/
theorem singleChunk_stepBlock_fields (o : Option BlockLoc) :
    (stepBlock singleChunkWorld o).indoor = 0
    ∧ (stepBlock singleChunkWorld o).outdoor = 0 := by
  cases o with
  | none => exact ⟨rfl, rfl⟩
  | some Y => exact ⟨(singleChunk_GetBlock_fields Y).1, (singleChunk_GetBlock_fields Y).2.1⟩

/-- The single-chunk test world (all air, no sky flags) satisfies the
relaxation fixed point at every locator. -/
theorem singleChunk_correct (L : BlockLoc) : lightingCorrect singleChunkWorld L := by
  have hcur := singleChunk_GetBlock_fields L
  have hmaxI : maxIndoor (neighborBlocks singleChunkWorld L) = 0 := by
    unfold neighborBlocks maxIndoor
    simp only [List.foldr]
    rw [(singleChunk_stepBlock_fields (ToEast singleChunkWorld L)).1,
      (singleChunk_stepBlock_fields (ToWest singleChunkWorld L)).1,
      (singleChunk_stepBlock_fields (ToNorth singleChunkWorld L)).1,
      (singleChunk_stepBlock_fields (ToSouth singleChunkWorld L)).1,
      (singleChunk_GetBlock_fields (ToAbove L)).1,
      (singleChunk_GetBlock_fields (ToBelow L)).1]
    decide
  have hmaxO : maxOutdoor (neighborBlocks singleChunkWorld L) = 0 := by
    unfold neighborBlocks maxOutdoor
    simp only [List.foldr]
    rw [(singleChunk_stepBlock_fields (ToEast singleChunkWorld L)).2,
      (singleChunk_stepBlock_fields (ToWest singleChunkWorld L)).2,
      (singleChunk_stepBlock_fields (ToNorth singleChunkWorld L)).2,
      (singleChunk_stepBlock_fields (ToSouth singleChunkWorld L)).2,
      (singleChunk_GetBlock_fields (ToAbove L)).2.1,
      (singleChunk_GetBlock_fields (ToBelow L)).2.1]
    decide
  constructor
  · rw [hcur.1]
    unfold expectedIndoorLight
    rw [hcur.2.2.1]
    rw [if_neg (by decide : ¬ (singleChunkWorld.reg 0).isFullyOpaque = true), hmaxI]
    decide
  · rw [hcur.2.1]
    unfold expectedOutdoorLight
    rw [hcur.2.2.1, hcur.2.2.2]
    rw [if_neg (by decide : ¬ false = true)]
    rw [if_pos (by decide : ¬ (singleChunkWorld.reg 0).isFullyOpaque = true), hmaxO]
    decide

/-- The single-chunk test world satisfies the lighting invariant. -/
theorem singleChunk_inv : LightingInv singleChunkWorld := by
  refine ⟨?_, List.nodup_nil, ?_, ?_, ?_⟩
  · intro L h
    exact absurd h (List.not_mem_nil L)
  · intro L hv
    obtain ⟨c, hc, hact, _⟩ := hv
    obtain ⟨lc, li⟩ := L
    cases hc
    have h : GetBlock singleChunkWorld ⟨some c, li⟩
        = if c ∈ singleChunkWorld.active then singleChunkWorld.blocks c li
          else MISSING_BLOCK := rfl
    rw [h, if_pos hact]
    have hb : singleChunkWorld.blocks c li = airBlock := rfl
    rw [hb]
    constructor
    · intro hf
      exact absurd hf (by decide)
    · intro hm
      exact absurd hm (List.not_mem_nil _)
  · intro c i
    have hb : singleChunkWorld.blocks c i = airBlock := rfl
    rw [hb]
    exact ⟨by decide, by decide⟩
  · intro L hv hnc
    exact absurd (singleChunk_correct L) hnc

/-- The test registry's emissive levels are within the light range. -/
theorem singleChunk_wf :
    ∀ t, (singleChunkWorld.reg t).internalLightLevel ≤ BLOCK_MAX_LIGHTING := by
  intro t
  show (testRegistry t).internalLightLevel ≤ BLOCK_MAX_LIGHTING
  unfold testRegistry
  split
  · decide
  · split
    · decide
    · decide

/-- **C2**: when UpdateLighting returns a final state (the dirty lighting
queue has been drained), every block of every active chunk satisfies the
relaxation fixed point — indoor light equals max(ownEmission, maxNeighborIndoor
minus 1) (just ownEmission for opaque blocks) and outdoor light equals 15 for
sky blocks, else the clamped neighbor maximum minus 1 for non-opaque blocks,
else 0 — and re-running the relaxation on any block of the converged state
changes nothing and enqueues nothing (RecalculateLightingForBlock returns the
state unchanged).  The hypotheses say the starting state's dirty queue is
consistent with the block flags and contains every violating block, which is
what InitializeLightingForChunk and the dig path establish. -/
theorem C2_lighting_convergence (fuel : Nat) (w w' : WorldState)
    (hwf : ∀ t, (w.reg t).internalLightLevel ≤ BLOCK_MAX_LIGHTING)
    (hinv : LightingInv w)
    (hrun : UpdateLighting fuel w = some w') :
    (∀ L, validLoc w' L → lightingCorrect w' L)
    ∧ ∀ L, validLoc w' L → RecalculateLightingForBlock w' L = some w' := by
  obtain ⟨⟨hqv', hnd', hfq', hlb', hviol'⟩, hqd, _⟩ :=
    UpdateLighting_inv fuel w w' hwf hinv hrun
  have hall : ∀ L, validLoc w' L → lightingCorrect w' L := by
    intro L hv
    by_contra hnc
    have hmem := hviol' L hv hnc
    rw [hqd] at hmem
    exact absurd hmem (List.not_mem_nil L)
  refine ⟨hall, ?_⟩
  intro L hv
  have hcorr := hall L hv
  obtain ⟨c, hc, _, _⟩ := hv
  exact recalc_correct_noop w' c L hc hcorr

/-- Witness for C2: the single-chunk all-air world with an empty dirty queue
is already drained; the claim's conclusions hold at block 0 of its chunk. -/
theorem C2_lighting_convergence_witness :
    lightingCorrect singleChunkWorld ⟨some ((0 : Int), (0 : Int)), 0⟩
    ∧ RecalculateLightingForBlock singleChunkWorld ⟨some ((0 : Int), (0 : Int)), 0⟩
        = some singleChunkWorld := by
  have h := C2_lighting_convergence 0 singleChunkWorld singleChunkWorld
    singleChunk_wf singleChunk_inv rfl
  have hv : validLoc singleChunkWorld ⟨some ((0 : Int), (0 : Int)), 0⟩ :=
    ⟨((0 : Int), (0 : Int)), rfl, by decide, by decide⟩
  exact ⟨h.1 _ hv, h.2 _ hv⟩

/-- Folding a function that fixes the state over any list leaves it fixed. -/
theorem foldl_fixed {α : Type} (f : WorldState → α → WorldState) :
    ∀ (ls : List α) (w : WorldState), (∀ a ∈ ls, f w a = w) → ls.foldl f w = w := by
  intro ls
  induction ls with
  | nil => intro w _; rfl
  | cons a as ih =>
    intro w h
    simp only [List.foldl_cons]
    rw [h a (List.mem_cons_self a as)]
    exact ih w (fun b hb => h b (List.mem_cons_of_mem a hb))

/-- Every block of the chunk being activated in the C8 scenario is stone. -/
theorem c8_blocks00 (i : Nat) : c8World.blocks ((0 : Int), (0 : Int)) i = stoneBlock := by
  show (if (((0 : Int), (0 : Int)) = ((0 : Int), (-1 : Int)) ∧ i = 240)
    then airBlock else stoneBlock) = stoneBlock
  rw [if_neg]
  rintro ⟨h1, -⟩
  exact absurd (congrArg Prod.snd h1) (by decide)

/-- Reading any block of chunk (0,0) in the C8 scenario yields stone. -/
theorem c8_GetBlock00 (i : Nat) :
    GetBlock c8World ⟨some ((0 : Int), (0 : Int)), i⟩ = stoneBlock := by
  have h : GetBlock c8World ⟨some ((0 : Int), (0 : Int)), i⟩
      = if ((0 : Int), (0 : Int)) ∈ c8World.active
        then c8World.blocks ((0 : Int), (0 : Int)) i else MISSING_BLOCK := rfl
  rw [h, if_pos (by decide), c8_blocks00]

/-- Reading any south-neighbor block other than index 240 yields stone. -/
theorem c8_GetBlockS (i : Nat) (hne : i ≠ 240) :
    GetBlock c8World ⟨some ((0 : Int), (-1 : Int)), i⟩ = stoneBlock := by
  have h : GetBlock c8World ⟨some ((0 : Int), (-1 : Int)), i⟩
      = if ((0 : Int), (-1 : Int)) ∈ c8World.active
        then c8World.blocks ((0 : Int), (-1 : Int)) i else MISSING_BLOCK := rfl
  rw [h, if_pos (by decide)]
  show (if (((0 : Int), (-1 : Int)) = ((0 : Int), (-1 : Int)) ∧ i = 240)
    then airBlock else stoneBlock) = stoneBlock
  rw [if_neg]
  rintro ⟨-, h2⟩
  exact hne h2

/-- Unfolding one step of the downward sky-column scan. -/
theorem skyColumnScan_succ (c : ChunkCoord) (x y n : Nat) (w : WorldState) :
    skyColumnScan c x y (n + 1) w =
      if (w.reg (GetBlock w ⟨some c, GetBlockIndexFromBlockCoords x y n⟩).typeIndex).isFullyOpaque
          = true then w
      else skyColumnScan c x y n
        (updateBlock w c (GetBlockIndexFromBlockCoords x y n)
          (fun b => { b with outdoor := BLOCK_MAX_LIGHTING, isPartOfSky := true })) := rfl

/-- In the C8 scenario every column of the activated chunk stops at its top
block (stone is fully opaque), so the scan changes nothing. -/
theorem c8_skyColumn (x y : Nat) :
    skyColumnScan ((0 : Int), (0 : Int)) x y CHUNK_DIMENSIONS_Z c8World = c8World := by
  show skyColumnScan ((0 : Int), (0 : Int)) x y (255 + 1) c8World = c8World
  rw [skyColumnScan_succ, c8_GetBlock00, if_pos (by decide)]

/-- Sky pass 1 leaves the C8 world unchanged. -/
theorem c8_pass1 : initializeSkyPass1 c8World ((0 : Int), (0 : Int)) = c8World := by
  unfold initializeSkyPass1
  refine foldl_fixed _ _ _ ?_
  intro y _
  refine foldl_fixed _ _ _ ?_
  intro x _
  exact c8_skyColumn x y

/-- Sky pass 2 leaves the C8 world unchanged (no block is flagged sky). -/
theorem c8_pass2 : initializeSkyPass2 c8World ((0 : Int), (0 : Int)) = c8World := by
  unfold initializeSkyPass2
  refine foldl_fixed _ _ _ ?_
  intro idx _
  dsimp only
  rw [c8_GetBlock00, if_neg (by decide)]

/-- The light-source pass leaves the C8 world unchanged (stone is opaque). -/
theorem c8_lightSources :
    initializeLightSourceBlocksForChunk c8World ((0 : Int), (0 : Int)) = c8World := by
  unfold initializeLightSourceBlocksForChunk
  refine foldl_fixed _ _ _ ?_
  intro idx _
  dsimp only
  rw [c8_GetBlock00, if_neg (by decide)]

/-- Membership in the fixed-y face locator list. -/
theorem mem_edgeLocatorsXZ (c : ChunkCoord) (y : Nat) (L : BlockLoc) :
    L ∈ edgeLocatorsXZ c y ↔ ∃ z, z < CHUNK_DIMENSIONS_Z ∧ ∃ x, x < CHUNK_DIMENSIONS_X
      ∧ L = ⟨some c, GetBlockIndexFromBlockCoords x y z⟩ := by
  unfold edgeLocatorsXZ
  simp only [List.mem_flatMap, List.mem_map, List.mem_range]
  constructor
  · rintro ⟨z, hz, x, hx, hEq⟩
    exact ⟨z, hz, x, hx, hEq.symm⟩
  · rintro ⟨z, hz, x, hx, hEq⟩
    exact ⟨z, hz, x, hx, hEq.symm⟩

/-- The edge seeding leaves the C8 world unchanged: only the south branch
runs, and it scans the south neighbor's y = 0 face, which is all stone. -/
theorem c8_edge :
    setNeighborEdgeBlocksToDirtyForChunk c8World ((0 : Int), (0 : Int)) = c8World := by
  unfold setNeighborEdgeBlocksToDirtyForChunk
  rw [show GetEastNeighbor c8World ((0 : Int), (0 : Int)) = none from by decide,
    show GetWestNeighbor c8World ((0 : Int), (0 : Int)) = none from by decide,
    show GetNorthNeighbor c8World ((0 : Int), (0 : Int)) = none from by decide,
    show GetSouthNeighbor c8World ((0 : Int), (0 : Int)) = some ((0 : Int), (-1 : Int))
      from by decide]
  dsimp only
  refine foldl_fixed _ _ _ ?_
  intro L hL
  obtain ⟨z, hz, x, hx, rfl⟩ := (mem_edgeLocatorsXZ _ 0 L).1 hL
  unfold addDirtyIfNotOpaque
  have hne : GetBlockIndexFromBlockCoords x 0 z ≠ 240 := by
    unfold GetBlockIndexFromBlockCoords
    have hX : (CHUNK_DIMENSIONS_X : Nat) = 16 := rfl
    have hZ : (BLOCKS_PER_Z_LAYER : Nat) = 256 := rfl
    rw [hX, hZ]
    rw [hX] at hx
    omega
  rw [c8_GetBlockS _ hne, if_pos (by decide)]

/-- **C8**: refuted — when chunk (0,0) is activated with an active south
neighbor, the south branch of SetNeighborEdgeBlocksToDirtyForChunk scans the
south neighbor's y = 0 row (its own south face, IntVector3(xIndex, 0, zIndex),
copy-pasted from the north branch) instead of its north face y = 15.  In the
C8 scenario the south neighbor's north-face block 240 is non-opaque and
lies directly on the face adjacent to the new chunk (its north step lands in
chunk (0,0)), yet the whole lighting initialization leaves the world — in
particular the dirty lighting queue — unchanged, so the block is never
enqueued and no light is pulled across the south boundary. -/
theorem C8_south_neighbor_edge_not_enqueued :
    GetSouthNeighbor c8World ((0 : Int), (0 : Int)) = some ((0 : Int), (-1 : Int))
    ∧ (c8World.reg (GetBlock c8World
        ⟨some ((0 : Int), (-1 : Int)), 240⟩).typeIndex).isFullyOpaque = false
    ∧ ToNorth c8World ⟨some ((0 : Int), (-1 : Int)), 240⟩
        = some ⟨some ((0 : Int), (0 : Int)), 0⟩
    ∧ initializeLightingForChunk c8World ((0 : Int), (0 : Int)) = c8World
    ∧ c8World.dirtyQueue = [] := by
  refine ⟨by decide, by decide, by decide, ?_, rfl⟩
  unfold initializeLightingForChunk
  rw [c8_pass1, c8_pass2, c8_lightSources, c8_edge]

/-- **C9**: refuted for the place path — digging enqueues the dug block for
relighting, but the place-block path of ProcessInput only sets the block type
and the chunk save flag and leaves the dirty lighting queue exactly as it
was, for every world state, target block and block type.  (The flag
hypothesis says the dug block is not already queued, the normal state per the
queue/flag invariant; the activity hypothesis makes the locator valid.) -/
theorem C9_place_path_never_enqueues (w : WorldState) (c : ChunkCoord) (idx t : Nat)
    (hflag : (GetBlock w ⟨some c, idx⟩).isInDirtyLightingList = false)
    (hact : c ∈ w.active) :
    (placeBlockFromInput w c idx t).dirtyQueue = w.dirtyQueue
    ∧ ⟨some c, idx⟩ ∈ (digBlock w c idx).dirtyQueue := by
  constructor
  · rfl
  · unfold digBlock
    have hGB : (GetBlock (setNeedsSave (setBlockTypeAtBlockIndex w c idx AIR_TYPE_INDEX) c)
        ⟨some c, idx⟩).isInDirtyLightingList = false := by
      have h12 : GetBlock (setNeedsSave (setBlockTypeAtBlockIndex w c idx AIR_TYPE_INDEX) c)
          ⟨some c, idx⟩
          = GetBlock (setBlockTypeAtBlockIndex w c idx AIR_TYPE_INDEX) ⟨some c, idx⟩ := rfl
      rw [h12]
      unfold setBlockTypeAtBlockIndex
      rw [GetBlock_updateBlock, if_pos ⟨rfl, rfl, hact⟩]
      exact hflag
    unfold AddBlockToDirtyLightingList
    rw [hGB, if_neg (by decide)]
    show (⟨some c, idx⟩ : BlockLoc) ∈ w.dirtyQueue ++ [(⟨some c, idx⟩ : BlockLoc)]
    exact List.mem_append_right _ (by simp)

/-- Witness for C9 at the single-chunk world, block 0, placing stone. -/
theorem C9_place_path_never_enqueues_witness :
    (placeBlockFromInput singleChunkWorld ((0 : Int), (0 : Int)) 0 1).dirtyQueue
        = singleChunkWorld.dirtyQueue
    ∧ (⟨some ((0 : Int), (0 : Int)), 0⟩ : BlockLoc)
        ∈ (digBlock singleChunkWorld ((0 : Int), (0 : Int)) 0).dirtyQueue :=
  C9_place_path_never_enqueues singleChunkWorld ((0 : Int), (0 : Int)) 0 1
    (by decide) (by decide)

/-- The activation scan only ever selects a chunk whose squared distance is
strictly below the bound that the running minimum started at. -/
theorem activation_fold_lt (w : WorldState) (cam : ℚ × ℚ) (ls : List ChunkCoord) :
    ∀ (acc : Option ChunkCoord × ℚ) (bound : ℚ), acc.2 ≤ bound →
    (∀ c, acc.1 = some c → distSqToChunkCenter cam c < bound) →
    ∀ c, (ls.foldl (activationScanStep w cam) acc).1 = some c →
      distSqToChunkCenter cam c < bound := by
  induction ls with
  | nil => exact fun acc bound _ hpred c h => hpred c h
  | cons a as ih =>
    intro acc bound hle hpred c h
    rw [List.foldl_cons] at h
    unfold activationScanStep at h
    by_cases hm : a ∈ w.active
    · rw [if_pos hm] at h
      exact ih acc bound hle hpred c h
    · rw [if_neg hm] at h
      by_cases hd : distSqToChunkCenter cam a < acc.2
      · rw [if_pos hd] at h
        refine ih _ bound (le_of_lt (lt_of_lt_of_le hd hle)) ?_ c h
        intro c2 hc2
        have hc2' : a = c2 := by
          have := congrArg id hc2
          simpa using this
        rw [← hc2']
        exact lt_of_lt_of_le hd hle
      · rw [if_neg hd] at h
        exact ih acc bound hle hpred c h

/-- The deactivation scan only ever selects a chunk whose squared distance
strictly exceeds the threshold. -/
theorem deactivation_fold_gt (cam : ℚ × ℚ) (dSq : ℚ) (ls : List ChunkCoord) :
    ∀ (acc : Option ChunkCoord × ℚ),
    (∀ c, acc.1 = some c → dSq < distSqToChunkCenter cam c) →
    ∀ c, (ls.foldl (deactivationScanStep cam dSq) acc).1 = some c →
      dSq < distSqToChunkCenter cam c := by
  induction ls with
  | nil => exact fun acc hpred c h => hpred c h
  | cons a as ih =>
    intro acc hpred c h
    rw [List.foldl_cons] at h
    unfold deactivationScanStep at h
    by_cases hd : distSqToChunkCenter cam a > dSq ∧ distSqToChunkCenter cam a > acc.2
    · rw [if_pos hd] at h
      refine ih _ ?_ c h
      intro c2 hc2
      have hc2' : a = c2 := by
        have := congrArg id hc2
        simpa using this
      rw [← hc2']
      exact hd.1
    · rw [if_neg hd] at h
      exact ih acc hpred c h

/-- **C5**: activation hysteresis.  Whatever chunk the activation search
selects on a tick lies strictly within the squared activation range — so a
chunk at distance D > activation_range is never activated — and whatever
chunk the deactivation search selects lies strictly outside the squared
(activation_range + deactivation_offset) threshold — so an active chunk at
distance D ≤ activation_range + deactivation_offset is never deactivated.
Squared distances are compared, which for nonnegative ranges is the claim's
distance comparison. -/
theorem C5_activation_hysteresis (w : WorldState) (cam : ℚ × ℚ)
    (activationRange deactivationOffset : ℚ) (c : ChunkCoord) :
    (getClosestInactiveChunkCoordsWithinActivationRange w cam activationRange = some c →
      distSqToChunkCenter cam c < activationRange * activationRange)
    ∧ (getFarthestActiveChunkOutsideDeactivationRange w cam
        activationRange deactivationOffset = some c →
      (activationRange + deactivationOffset) * (activationRange + deactivationOffset)
        < distSqToChunkCenter cam c) := by
  constructor
  · intro h
    exact activation_fold_lt w cam _ _ _ le_rfl (fun c2 hc2 => Option.noConfusion hc2) c h
  · intro h
    exact deactivation_fold_gt cam _ _ _ (fun c2 hc2 => Option.noConfusion hc2) c h

/-- With the camera at the center of chunk (0,0), range 8, and no active
chunks, the activation search selects chunk (0,0). -/
theorem c5_activation_premise :
    getClosestInactiveChunkCoordsWithinActivationRange emptyWorld ((8 : ℚ), (8 : ℚ)) 8
      = some ((0 : Int), (0 : Int)) := by
  unfold getClosestInactiveChunkCoordsWithinActivationRange chunkScanWindow
  norm_num [show (⌈(1 : ℚ)/2⌉ : Int) = 1 from by rw [Int.ceil_eq_iff]; norm_num,
    show (⌊(1 : ℚ)/2⌋ : Int) = 0 from by rw [Int.floor_eq_iff]; norm_num,
    show Int.toNat 3 = 3 from rfl,
    List.range_succ, activationScanStep, distSqToChunkCenter, emptyWorld]

/-- With the camera at the origin, range 1 and offset 1, the deactivation
search selects the single active chunk (0,0), whose center is far outside. -/
theorem c5_deactivation_premise :
    getFarthestActiveChunkOutsideDeactivationRange singleChunkWorld ((0 : ℚ), (0 : ℚ)) 1 1
      = some ((0 : Int), (0 : Int)) := by
  unfold getFarthestActiveChunkOutsideDeactivationRange
  norm_num [deactivationScanStep, distSqToChunkCenter, singleChunkWorld, emptyWorld]

/-- Witness for C5: with the camera at a chunk center and range 8 the search
activates that chunk (distance 0 < 64); with range 1, offset 1 the
deactivation search selects the single active chunk at squared distance 128,
which indeed strictly exceeds 4. -/
theorem C5_activation_hysteresis_witness :
    distSqToChunkCenter ((8 : ℚ), (8 : ℚ)) ((0 : Int), (0 : Int)) < 8 * 8
    ∧ ((1 : ℚ) + 1) * (1 + 1) < distSqToChunkCenter ((0 : ℚ), (0 : ℚ)) ((0 : Int), (0 : Int)) :=
  ⟨(C5_activation_hysteresis emptyWorld ((8 : ℚ), (8 : ℚ)) 8 0 ((0 : Int), (0 : Int))).1
      c5_activation_premise,
   (C5_activation_hysteresis singleChunkWorld ((0 : ℚ), (0 : ℚ)) 1 1 ((0 : Int), (0 : Int))).2
      c5_deactivation_premise⟩

/-- When the current sample floors to the same coordinates as the last one,
the march just advances (no solidity test). -/
theorem raycastLoop_succ_same (w : WorldState) (start dir : ℚ × ℚ × ℚ)
    (maxDist : ℚ) (n stepIndex : Nat) (lastF : Int × Int × Int)
    (h : flooredCoords (rayPos start dir stepIndex) = lastF) :
    raycastLoop w start dir maxDist (n + 1) stepIndex lastF
      = raycastLoop w start dir maxDist n (stepIndex + 1) lastF := by
  show (if flooredCoords (rayPos start dir stepIndex) = lastF then
      raycastLoop w start dir maxDist n (stepIndex + 1) lastF
    else _) = raycastLoop w start dir maxDist n (stepIndex + 1) lastF
  rw [if_pos h]

/-- If every remaining sample floors to the start's coordinates, the march
runs to exhaustion and returns the no-hit result. -/
theorem raycastLoop_all_same (w : WorldState) (start dir : ℚ × ℚ × ℚ) (maxDist : ℚ) :
    ∀ (remaining stepIndex : Nat),
    (∀ k, stepIndex ≤ k → k < stepIndex + remaining →
      flooredCoords (rayPos start dir k) = flooredCoords start) →
    raycastLoop w start dir maxDist remaining stepIndex (flooredCoords start)
      = noHitResult w start dir maxDist := by
  intro remaining
  induction remaining with
  | zero => intro stepIndex _; rfl
  | succ n ih =>
    intro stepIndex h
    have hstep : flooredCoords (rayPos start dir stepIndex) = flooredCoords start :=
      h stepIndex le_rfl (by omega)
    rw [raycastLoop_succ_same w start dir maxDist n stepIndex _ hstep]
    exact ih (stepIndex + 1) (fun k hk1 hk2 => h k (by omega) (by omega))

/-- **C10**: solidity is only tested between sub-steps whose floored integer
coordinates differ, so a ray that never leaves its starting block — every
sample floors to the start's coordinates — returns the non-impact result with
impact fraction exactly 1 (hence DidImpact() false) and impact distance equal
to maxDistance, for every world: in particular no immediate impact is
reported when the start position lies inside a solid block. -/
theorem C10_no_immediate_impact_inside_solid (w : WorldState)
    (start dir : ℚ × ℚ × ℚ) (maxDist : ℚ)
    (hsame : ∀ k, k < totalSteps maxDist →
      flooredCoords (rayPos start dir k) = flooredCoords start) :
    raycast w start dir maxDist = noHitResult w start dir maxDist
    ∧ (raycast w start dir maxDist).impactFraction = 1
    ∧ (raycast w start dir maxDist).didImpact = false
    ∧ (raycast w start dir maxDist).impactDistance = maxDist := by
  have h : raycast w start dir maxDist = noHitResult w start dir maxDist := by
    unfold raycast
    exact raycastLoop_all_same w start dir maxDist (totalSteps maxDist) 0
      (fun k hk1 hk2 => hsame k (by omega))
  refine ⟨h, ?_, ?_, ?_⟩
  · rw [h]
    rfl
  · rw [h]
    show decide ((1 : ℚ) < 1) = false
    rw [decide_eq_false (lt_irrefl (1 : ℚ))]
  · rw [h]
    rfl

/-- A quarter-block ray east from the center of block (0,0,0) keeps every one
of its 25 samples inside the starting block. -/
theorem c10_premise : ∀ k, k < totalSteps ((1 : ℚ)/4) →
    flooredCoords (rayPos ((1 : ℚ)/2, (1 : ℚ)/2, (1 : ℚ)/2) (1, 0, 0) k)
      = flooredCoords ((1 : ℚ)/2, (1 : ℚ)/2, (1 : ℚ)/2) := by
  intro k hk
  have h25 : totalSteps ((1 : ℚ)/4) = 25 := by
    unfold totalSteps
    rw [show (1 : ℚ)/4 * 100 = 25 by norm_num,
      show (⌊(25 : ℚ)⌋ : Int) = 25 from by rw [Int.floor_eq_iff]; norm_num]
    rfl
  rw [h25] at hk
  have hk24 : (k : ℚ) ≤ 24 := by exact_mod_cast Nat.le_of_lt_succ hk
  have hk0 : (0 : ℚ) ≤ (k : ℚ) := Nat.cast_nonneg k
  have hhalf : (⌊(1 : ℚ)/2⌋ : Int) = 0 := by rw [Int.floor_eq_iff]; norm_num
  have hx : (⌊(1 : ℚ)/2 + (k : ℚ)/100 * 1⌋ : Int) = 0 := by
    rw [Int.floor_eq_iff]
    constructor
    · push_cast
      linarith
    · push_cast
      linarith
  have hy : (⌊(1 : ℚ)/2 + (k : ℚ)/100 * 0⌋ : Int) = 0 := by
    rw [Int.floor_eq_iff]
    constructor
    · push_cast
      linarith
    · push_cast
      linarith
  unfold flooredCoords rayPos
  dsimp only
  rw [hx, hy, hhalf]

/-- Witness for C10: in the all-stone world, a quarter-block ray from the
center of solid block (0,0,0) reports no impact with fraction exactly 1. -/
theorem C10_no_immediate_impact_inside_solid_witness :
    (raycast c10World ((1 : ℚ)/2, (1 : ℚ)/2, (1 : ℚ)/2) (1, 0, 0) (1/4)).impactFraction = 1
    ∧ (raycast c10World ((1 : ℚ)/2, (1 : ℚ)/2, (1 : ℚ)/2) (1, 0, 0) (1/4)).didImpact = false
    ∧ isSolidAt c10World (getBlockLocatorForFlooredPosition c10World (0, 0, 0)) = true :=
  ⟨(C10_no_immediate_impact_inside_solid c10World ((1 : ℚ)/2, (1 : ℚ)/2, (1 : ℚ)/2)
      (1, 0, 0) (1/4) c10_premise).2.1,
   (C10_no_immediate_impact_inside_solid c10World ((1 : ℚ)/2, (1 : ℚ)/2, (1 : ℚ)/2)
      (1, 0, 0) (1/4) c10_premise).2.2.1,
   by decide⟩

end SM
